import Mathlib

/-!
# Verification of the STCFP-Context data-loading pipeline

Shallow embedding of `src/UCTB/dataset/data_loader.py` (class
`NodeTrafficLoader`).  Numeric data is modelled over `ℚ`; a time-major
array is a `List` of rows (each row a `List ℚ`).  Python/numpy slicing
with possibly negative indices is modelled by `pyIdx` / `pySlice` /
`pySliceFrom`.

The loader imports four collaborators (`SplitData`, `Normalizer`,
`ST_MoveSample`, `GraphBuilder`) from `UCTB.preprocess` / `UCTB.model_unit`;
those modules are repository code that is not part of the sources under
verification, so they are modelled from the specification and each such
definition is marked `Modelled from the spec:`.
-/

namespace UCTB

/-- Python `int(q)` for the nonnegative rationals appearing in the loader
(`int` truncation towards zero agrees with `Int.floor` on nonnegative
input); negative input is clamped to `0` by `Int.toNat`. -/
def floorNat (q : ℚ) : ℕ := (⌊q⌋).toNat

/-- Resolution of a (possibly negative) Python index `i` against a list of
length `len`: a negative index counts from the end and is clamped to `0`,
a nonnegative one is clamped to `len`.  This is the index used by a slice
bound `a[i:]` / `a[:i]`. -/
def pyIdx (len : ℕ) (i : ℤ) : ℕ := if i < 0 then ((len : ℤ) + i).toNat else min i.toNat len

/-- Python slice `a[s:e]` with possibly negative bounds. -/
def pySlice (a : List α) (s e : ℤ) : List α :=
  (a.take (pyIdx a.length e)).drop (pyIdx a.length s)

/-- Python slice `a[s:]` with a possibly negative bound. -/
def pySliceFrom (a : List α) (s : ℤ) : List α := a.drop (pyIdx a.length s)

/-- `a[r0:r1]` for nonnegative bounds (the `data_range` selection). -/
def sliceRange (a : List α) (r0 r1 : ℕ) : List α := (a.take r1).drop r0

/-- Number of columns of a time-major matrix (numpy `shape[1]`). -/
def ncols (m : List (List ℚ)) : ℕ := (m.headD []).length

/-- Column `j` of a time-major matrix. -/
def column (m : List (List ℚ)) (j : ℕ) : List ℚ := m.map (fun row => row.getD j 0)

/-- `np.mean(m, axis=0)[j]`: mean of column `j` over all rows. -/
def colMean (m : List (List ℚ)) (j : ℕ) : ℚ := (column m j).sum / (m.length : ℚ)

/-- `np.min(m, axis=0)[j]` (0 when there are no rows). -/
def colMin (m : List (List ℚ)) (j : ℕ) : ℚ :=
  match column m j with
  | [] => 0
  | x :: xs => xs.foldl min x

/-- `np.max(m, axis=0)[j]` (0 when there are no rows). -/
def colMax (m : List (List ℚ)) (j : ℕ) : ℚ :=
  match column m j with
  | [] => 0
  | x :: xs => xs.foldl max x

/-- The `data_range` constructor argument (data_loader.py lines 117-124):
`'all'`, a float fraction, or a `[start_day, end_day]` pair. -/
inductive DataRange where
  | all : DataRange
  | frac (f : ℚ) : DataRange
  | interval (s e : ℕ) : DataRange

/-- The `train_data_length` constructor argument: `'all'` or a number of
days. -/
inductive TrainLength where
  | all : TrainLength
  | days (d : ℕ) : TrainLength

/-- The fields of the raw `DataSet` collaborator that the loader reads.
`daily_slots` stands for `24 * 60 / time_fitness` (line 104).
`external_rows` stands for the full-timeline external source rows
(weather / holiday / time-position all have exactly one row per raw time
slot before the `data_range` selection). -/
structure RawData where
  node_traffic : List (List ℚ)
  daily_slots : ℚ
  external_rows : List (List ℚ)
  node_station_info : List (ℚ × ℚ)
  node_monthly_interaction : List (List (List ℚ))
  graph_neighbors : List (List ℚ)
  graph_lines : List (List ℚ)
  graph_transfer : List (List ℚ)

/-- The constructor configuration of `NodeTrafficLoader` (the parameters
the modelled claims depend on). `externalUse` stands for `external_use`
selecting at least one available source. -/
structure Config where
  dataRange : DataRange
  trainDataLength : TrainLength
  test_ratio : ℚ
  closeness_len : ℕ
  period_len : ℕ
  trend_len : ℕ
  external_lstm_len : ℕ
  target_length : ℕ
  normalize : Bool
  externalUse : Bool

/-- Resolution of `data_range` into `[start, end)` slot indices
(data_loader.py lines 117-124). -/
def resolved_range (raw : RawData) (dr : DataRange) : ℕ × ℕ :=
  match dr with
  | .all => (0, raw.node_traffic.length)
  | .frac f => (0, floorNat (f * (raw.node_traffic.length : ℚ)))
  | .interval s e => (floorNat ((s : ℚ) * raw.daily_slots), floorNat ((e : ℚ) * raw.daily_slots))

/-- `np.where(np.mean(node_traffic, axis=0) * daily_slots > 1)[0]`
(data_loader.py line 129): the kept original node indices, in increasing
order.  Computed from the whole raw series, before the `data_range`
selection and the train/test split. -/
def traffic_data_index (raw : RawData) : List ℕ :=
  (List.range (ncols raw.node_traffic)).filter
    (fun j => decide (colMean raw.node_traffic j * raw.daily_slots > 1))

/-- `node_traffic[data_range[0]:data_range[1], traffic_data_index]`
(data_loader.py line 131). -/
def traffic_data (raw : RawData) (cfg : Config) : List (List ℚ) :=
  let r := resolved_range raw cfg.dataRange
  (sliceRange raw.node_traffic r.1 r.2).map
    (fun row => (traffic_data_index raw).map (fun j => row.getD j 0))

/-- The assembled external feature matrix (data_loader.py lines 134-215):
one row per selected time slot when at least one external source is
enabled and available, otherwise the empty array. -/
def external_feature (raw : RawData) (cfg : Config) : List (List ℚ) :=
  if cfg.externalUse ∧ 0 < raw.external_rows.length then
    let r := resolved_range raw cfg.dataRange
    sliceRange raw.external_rows r.1 r.2
  else []

/-- Modelled from the spec: `SplitData.split_data` (module
`UCTB.preprocess`, not among the sources under verification).  The spec
says partitions are contiguous with lengths `round(len*ratio)`, the last
partition absorbing the rounding remainder; for the `[1-test_ratio,
test_ratio]` pair used by the loader the split point is
`round(len * (1 - test_ratio))`. -/
def splitPoint (len : ℕ) (test_ratio : ℚ) : ℕ :=
  (round ((1 - test_ratio) * (len : ℚ))).toNat

/-- Modelled from the spec: `SplitData.split_data` applied with ratios
`[1 - test_ratio, test_ratio]`, returning the (train, test) partitions. -/
def split_data (a : List α) (test_ratio : ℚ) : List α × List α :=
  (a.take (splitPoint a.length test_ratio), a.drop (splitPoint a.length test_ratio))

/-- Modelled from the spec: the `Normalizer` state (module
`UCTB.preprocess`, not among the sources under verification): per-channel
(per-column) min and max. -/
structure Normalizer where
  minv : List ℚ
  maxv : List ℚ

/-- Modelled from the spec: `Normalizer` fit on one array, recording
per-column min and max. -/
def Normalizer.fit (train : List (List ℚ)) : Normalizer :=
  ⟨(List.range (ncols train)).map (colMin train),
   (List.range (ncols train)).map (colMax train)⟩

/-- The small epsilon the spec requires so that `max = min` does not
produce a division by zero. -/
def epsQ : ℚ := 1 / 100000

/-- Modelled from the spec: `Normalizer.min_max_normal`, elementwise
`(x - min) / (max - min + ε)` with the stored per-column statistics. -/
def Normalizer.min_max_normal (nz : Normalizer) (a : List (List ℚ)) : List (List ℚ) :=
  a.map (fun row =>
    List.mapIdx (fun j x => (x - nz.minv.getD j 0) / (nz.maxv.getD j 0 - nz.minv.getD j 0 + epsQ)) row)

/-- `max(int(daily_slots * period_len), int(daily_slots * 7 * trend_len),
closeness_len)` (data_loader.py lines 238-241); also the windower's
`max_lookback`. -/
def maxLookback (ds : ℚ) (c p t : ℕ) : ℕ :=
  max (floorNat (ds * (p : ℚ))) (max (floorNat (ds * 7 * (t : ℚ))) c)

/-- Modelled from the spec: the number of output rows of
`ST_MoveSample.move_sample` on an input with `T` rows: one row for each
current index `i` from `max_lookback` to `T - target_length` inclusive. -/
def sampleCount (ds : ℚ) (c p t tgt : ℕ) (T : ℕ) : ℕ :=
  T + 1 - tgt - maxLookback ds c p t

/-- Modelled from the spec: the closeness output of
`ST_MoveSample.move_sample`, shape `[count, nodes, closeness_len, 1]`;
empty when `closeness_len = 0`.  Row `r` has current index
`max_lookback + r` and window entry `k` holds `data[i - closeness_len + k]`. -/
def move_sample_closeness (ds : ℚ) (c p t tgt : ℕ) (data : List (List ℚ)) :
    List (List (List (List ℚ))) :=
  if c = 0 then [] else
    (List.range (sampleCount ds c p t tgt data.length)).map (fun r =>
      (List.range (ncols data)).map (fun n =>
        (List.range c).map (fun k =>
          [(data.getD (maxLookback ds c p t + r - c + k) []).getD n 0])))

/-- Modelled from the spec: the period output of
`ST_MoveSample.move_sample`, entries one day apart, earliest first:
window entry `k` holds `data[i - (period_len - k) * daily_slots]`. -/
def move_sample_period (ds : ℚ) (c p t tgt : ℕ) (data : List (List ℚ)) :
    List (List (List (List ℚ))) :=
  if p = 0 then [] else
    (List.range (sampleCount ds c p t tgt data.length)).map (fun r =>
      (List.range (ncols data)).map (fun n =>
        (List.range p).map (fun k =>
          [(data.getD (maxLookback ds c p t + r - floorNat (((p - k : ℕ) : ℚ) * ds)) []).getD n 0])))

/-- Modelled from the spec: the trend output of
`ST_MoveSample.move_sample`, entries seven days apart, earliest first:
window entry `k` holds `data[i - (trend_len - k) * 7 * daily_slots]`. -/
def move_sample_trend (ds : ℚ) (c p t tgt : ℕ) (data : List (List ℚ)) :
    List (List (List (List ℚ))) :=
  if t = 0 then [] else
    (List.range (sampleCount ds c p t tgt data.length)).map (fun r =>
      (List.range (ncols data)).map (fun n =>
        (List.range t).map (fun k =>
          [(data.getD (maxLookback ds c p t + r - floorNat (((t - k : ℕ) : ℚ) * 7 * ds)) []).getD n 0])))

/-- Modelled from the spec: the target output of
`ST_MoveSample.move_sample`, shape `[count, nodes, target_length]`;
row `r` holds `data[i : i + target_length]` at current index
`i = max_lookback + r`. -/
def move_sample_target (ds : ℚ) (c p t tgt : ℕ) (data : List (List ℚ)) :
    List (List (List ℚ)) :=
  if tgt = 0 then [] else
    (List.range (sampleCount ds c p t tgt data.length)).map (fun r =>
      (List.range (ncols data)).map (fun n =>
        (List.range tgt).map (fun s =>
          (data.getD (maxLookback ds c p t + r + s) []).getD n 0)))

/-- Truncation of the train partitions to the latest
`int(train_day_length * daily_slots)` rows
(data_loader.py lines 232-235): Python slice `a[-k:]`. -/
def truncStep (d : ℕ) (ds : ℚ) (a : List α) : List α :=
  pySliceFrom a (-(floorNat ((d : ℚ) * ds) : ℤ))

/-- The test expansion (data_loader.py lines 237-244):
`np.vstack([train[expand_start_index:], test])` where `expand_start_index`
is passed as a (possibly negative) Python index. -/
def expandStep (esi : ℤ) (train test : List α) : List α :=
  pySliceFrom train esi ++ test

/-- The re-slicing of external features to the traffic-derived sequence
length (data_loader.py lines 306-311): Python slice
`a[-seq_len - target_length : -target_length]`. -/
def tailSlice (seqLen tgt : ℕ) (a : List α) : List α :=
  pySlice a (-((seqLen : ℤ) + (tgt : ℤ))) (-(tgt : ℤ))

/-! ## Construction stages of `NodeTrafficLoader.__init__`, in source order -/

/-- `self.train_data` right after `SplitData.split_data` (line 223). -/
def train_split (raw : RawData) (cfg : Config) : List (List ℚ) :=
  (split_data (traffic_data raw cfg) cfg.test_ratio).1

/-- `self.test_data` right after `SplitData.split_data` (line 223). -/
def test_split (raw : RawData) (cfg : Config) : List (List ℚ) :=
  (split_data (traffic_data raw cfg) cfg.test_ratio).2

/-- `self.train_ef` right after `SplitData.split_data` (line 224). -/
def ef_train_split (raw : RawData) (cfg : Config) : List (List ℚ) :=
  (split_data (external_feature raw cfg) cfg.test_ratio).1

/-- `self.test_ef` right after `SplitData.split_data` (line 224). -/
def ef_test_split (raw : RawData) (cfg : Config) : List (List ℚ) :=
  (split_data (external_feature raw cfg) cfg.test_ratio).2

/-- `self.train_data` after the optional normalization (lines 227-230):
the normalizer is fit on the train partition only. -/
def train_norm (raw : RawData) (cfg : Config) : List (List ℚ) :=
  if cfg.normalize then (Normalizer.fit (train_split raw cfg)).min_max_normal (train_split raw cfg)
  else train_split raw cfg

/-- `self.test_data` after the optional normalization (lines 227-230):
the same statistics, fit on the train partition, are applied. -/
def test_norm (raw : RawData) (cfg : Config) : List (List ℚ) :=
  if cfg.normalize then (Normalizer.fit (train_split raw cfg)).min_max_normal (test_split raw cfg)
  else test_split raw cfg

/-- `self.train_data` after the optional `train_data_length` truncation
(lines 232-235). -/
def train_trunc (raw : RawData) (cfg : Config) : List (List ℚ) :=
  match cfg.trainDataLength with
  | .all => train_norm raw cfg
  | .days d => truncStep d raw.daily_slots (train_norm raw cfg)

/-- `self.train_ef` after the optional `train_data_length` truncation
(lines 232-235). -/
def ef_train_trunc (raw : RawData) (cfg : Config) : List (List ℚ) :=
  match cfg.trainDataLength with
  | .all => ef_train_split raw cfg
  | .days d => truncStep d raw.daily_slots (ef_train_split raw cfg)

/-- `expand_start_index` (lines 238-241), computed from the length of the
(possibly truncated) train traffic partition. -/
def expand_start_index (raw : RawData) (cfg : Config) : ℤ :=
  ((train_trunc raw cfg).length : ℤ)
    - (maxLookback raw.daily_slots cfg.closeness_len cfg.period_len cfg.trend_len : ℤ)

/-- `self.test_data` after the test expansion (line 243). -/
def test_expand (raw : RawData) (cfg : Config) : List (List ℚ) :=
  expandStep (expand_start_index raw cfg) (train_trunc raw cfg) (test_norm raw cfg)

/-- `self.test_ef` after the test expansion (line 244); note the index is
the one computed from the traffic train partition. -/
def ef_test_expand (raw : RawData) (cfg : Config) : List (List ℚ) :=
  expandStep (expand_start_index raw cfg) (ef_train_trunc raw cfg) (ef_test_split raw cfg)

/-- `max((len(c), len(p), len(t)))` (lines 260-261). -/
def seq_len (cl pe tr : List (List (List (List ℚ)))) : ℕ :=
  max cl.length (max pe.length tr.length)

/-- `self.train_sequence_len` (line 260).  The traffic sampler is built
with the literal `target_length=1` (line 249). -/
def train_sequence_len (raw : RawData) (cfg : Config) : ℕ :=
  seq_len
    (move_sample_closeness raw.daily_slots cfg.closeness_len cfg.period_len cfg.trend_len 1 (train_trunc raw cfg))
    (move_sample_period raw.daily_slots cfg.closeness_len cfg.period_len cfg.trend_len 1 (train_trunc raw cfg))
    (move_sample_trend raw.daily_slots cfg.closeness_len cfg.period_len cfg.trend_len 1 (train_trunc raw cfg))

/-- `self.test_sequence_len` (line 261). -/
def test_sequence_len (raw : RawData) (cfg : Config) : ℕ :=
  seq_len
    (move_sample_closeness raw.daily_slots cfg.closeness_len cfg.period_len cfg.trend_len 1 (test_expand raw cfg))
    (move_sample_period raw.daily_slots cfg.closeness_len cfg.period_len cfg.trend_len 1 (test_expand raw cfg))
    (move_sample_trend raw.daily_slots cfg.closeness_len cfg.period_len cfg.trend_len 1 (test_expand raw cfg))

/-- The state `NodeTrafficLoader.__init__` exposes (the attributes the
claims refer to). -/
structure Loader where
  traffic_data_index : List ℕ
  station_number : ℕ
  closeness_len : ℕ
  period_len : ℕ
  trend_len : ℕ
  train_data : List (List ℚ)
  test_data : List (List ℚ)
  train_closeness : List (List (List (List ℚ)))
  train_period : List (List (List (List ℚ)))
  train_trend : List (List (List (List ℚ)))
  train_y : List (List (List ℚ))
  test_closeness : List (List (List (List ℚ)))
  test_period : List (List (List (List ℚ)))
  test_trend : List (List (List (List ℚ)))
  test_y : List (List (List ℚ))
  train_sequence_len : ℕ
  test_sequence_len : ℕ
  train_ef : List (List ℚ)
  test_ef : List (List ℚ)
  train_lstm_ef : Option (List (List (List (List ℚ))))
  test_lstm_ef : Option (List (List (List (List ℚ))))

/-- The fully assembled loader state (every attribute as left by
`__init__` when construction succeeds).  The traffic sampler uses the
literal `target_length=1` (line 249); the external re-slicing
(lines 306-311) uses the `target_length` parameter, and only runs when the
external feature matrix is non-empty (line 289). -/
def mkLoader (raw : RawData) (cfg : Config) : Loader :=
  let ds := raw.daily_slots
  let c := cfg.closeness_len
  let p := cfg.period_len
  let t := cfg.trend_len
  let efNonempty := 0 < (external_feature raw cfg).length
  { traffic_data_index := traffic_data_index raw
    station_number := (traffic_data_index raw).length
    closeness_len := c
    period_len := p
    trend_len := t
    train_data := train_trunc raw cfg
    test_data := test_expand raw cfg
    train_closeness := move_sample_closeness ds c p t 1 (train_trunc raw cfg)
    train_period := move_sample_period ds c p t 1 (train_trunc raw cfg)
    train_trend := move_sample_trend ds c p t 1 (train_trunc raw cfg)
    train_y := move_sample_target ds c p t 1 (train_trunc raw cfg)
    test_closeness := move_sample_closeness ds c p t 1 (test_expand raw cfg)
    test_period := move_sample_period ds c p t 1 (test_expand raw cfg)
    test_trend := move_sample_trend ds c p t 1 (test_expand raw cfg)
    test_y := move_sample_target ds c p t 1 (test_expand raw cfg)
    train_sequence_len := train_sequence_len raw cfg
    test_sequence_len := test_sequence_len raw cfg
    train_ef :=
      if efNonempty then tailSlice (train_sequence_len raw cfg) cfg.target_length (ef_train_trunc raw cfg)
      else ef_train_trunc raw cfg
    test_ef :=
      if efNonempty then tailSlice (test_sequence_len raw cfg) cfg.target_length (ef_test_expand raw cfg)
      else ef_test_expand raw cfg
    train_lstm_ef :=
      if efNonempty ∧ 0 < cfg.external_lstm_len then
        some (tailSlice (train_sequence_len raw cfg) cfg.target_length
          (move_sample_closeness ds cfg.external_lstm_len 0 0 0 (ef_train_trunc raw cfg)))
      else none
    test_lstm_ef :=
      if efNonempty ∧ 0 < cfg.external_lstm_len then
        some (tailSlice (test_sequence_len raw cfg) cfg.target_length
          (move_sample_closeness ds cfg.external_lstm_len 0 0 0 (ef_test_expand raw cfg)))
      else none }

/-- `NodeTrafficLoader.__init__` as a fallible construction.  The three
abort points in source order:
* line 219-220: `raise ValueError` when `test_ratio` is outside `[0, 1]`;
* line 247-249: the sampler rejects all-zero window lengths
  (`ConfigError`, modelled from the spec since `ST_MoveSample` is not
  among the sources under verification);
* line 310: when external features are present but `external_lstm_len`
  is 0, `self.train_lstm_ef` is still `None` and the unconditional
  re-slicing raises `TypeError`. -/
def buildLoader (raw : RawData) (cfg : Config) : Except String Loader :=
  if cfg.test_ratio > 1 ∨ cfg.test_ratio < 0 then
    .error ("test_ratio ")
  else if cfg.closeness_len = 0 ∧ cfg.period_len = 0 ∧ cfg.trend_len = 0 then
    .error ("ConfigError: closeness_len, period_len and trend_len are all zero")
  else if 0 < (external_feature raw cfg).length ∧ cfg.external_lstm_len = 0 then
    .error ("TypeError: NoneType object is not subscriptable")
  else
    .ok (mkLoader raw cfg)

/-- The final `self.train_data` of a construction attempt (empty when
construction aborted). -/
def trainDataOf (r : Except String Loader) : List (List ℚ) :=
  match r with
  | .ok L => L.train_data
  | .error _ => []

/-! ## `make_concat` (data_loader.py lines 475-517) -/

/-- The `node` argument of `make_concat`: `'all'` or a single node index. -/
inductive NodeSel where
  | all : NodeSel
  | one (n : ℕ) : NodeSel

/-- The selected node list of `make_concat` (lines 504-507). -/
def selNodes (stationNumber : ℕ) : NodeSel → List ℕ
  | .all => List.range stationNumber
  | .one n => [n]

/-- `np.zeros([a, b, c])`. -/
def zeros3 (a b c : ℕ) : List (List (List ℚ)) :=
  List.replicate a (List.replicate b (List.replicate c (0 : ℚ)))

/-- The numpy assignment `history[:, i, k] = v` on a 3-D array: entry
`(r, i, k)` becomes `v r` for every row `r`. -/
def writeCol (h : List (List (List ℚ))) (i k : ℕ) (v : ℕ → ℚ) : List (List (List ℚ)) :=
  List.mapIdx (fun r m => m.set i ((m.getD i []).set k (v r))) h

/-- Entry `(r, i, k)` of a 3-D array. -/
def ent3 (h : List (List (List ℚ))) (r i k : ℕ) : ℚ :=
  ((h.getD r []).getD i []).getD k 0

/-- Entry `(r, i, k, ch)` of a 4-D array. -/
def ent4 (h : List (List (List (List ℚ)))) (r i k ch : ℕ) : ℚ :=
  (((h.getD r []).getD i []).getD k []).getD ch 0

/-- `a[r, n, k, -1]`: the last channel of a windowed array entry
(the source reads `closeness[:, node[i], c, -1]`). -/
def ent4last (a : List (List (List (List ℚ)))) (r n k : ℕ) : ℚ :=
  ((((a.getD r []).getD n []).getD k []).getLast?).getD 0

/-- The fill loops of `make_concat` (lines 508-515): starting from
`np.zeros([length, len(node), closeness_len + period_len + trend_len])`,
for each selected node position `i` the closeness columns `0..c-1`, the
period columns `c..c+p-1` and the trend columns `c+p..c+p+t-1` are
assigned from the windowed arrays at channel `-1`. -/
def concat_fill (len : ℕ) (nodes : List ℕ) (c p t : ℕ)
    (clos per tre : List (List (List (List ℚ)))) : List (List (List ℚ)) :=
  (List.range nodes.length).foldl (fun h i =>
    let h1 := (List.range c).foldl
      (fun h cc => writeCol h i cc (fun r => ent4last clos r (nodes.getD i 0) cc)) h
    let h2 := (List.range p).foldl
      (fun h pp => writeCol h i (c + pp) (fun r => ent4last per r (nodes.getD i 0) pp)) h1
    (List.range t).foldl
      (fun h tt => writeCol h i (c + p + tt) (fun r => ent4last tre r (nodes.getD i 0) tt)) h2)
    (zeros3 len nodes.length (c + p + t))

/-- `NodeTrafficLoader.make_concat` (lines 475-517): a zero 3-D array of
shape `[len(y), len(node), closeness_len + period_len + trend_len]` is
filled column-by-column from the closeness, period and trend arrays, then
`np.expand_dims(…, 3)` appends a trailing axis of size 1. -/
def make_concat (L : Loader) (node : NodeSel) (is_train : Bool) : List (List (List (List ℚ))) :=
  let y := if is_train then L.train_y else L.test_y
  let closeness := if is_train then L.train_closeness else L.test_closeness
  let period := if is_train then L.train_period else L.test_period
  let trend := if is_train then L.train_trend else L.test_trend
  let nodes := selNodes L.station_number node
  (concat_fill y.length nodes L.closeness_len L.period_len L.trend_len
      closeness period trend).map
    (fun m => m.map (fun row => row.map (fun x => [x])))

/-! ## Graphs (data_loader.py lines 361-415) -/

/-- The loader state `build_graph` reads, together with the two scalar
kernels (great-circle distance, Pearson correlation) whose numeric
definitions live in the `GraphBuilder` collaborator; since only the
thresholded 0/1 adjacency shape enters the claims, the kernels are kept
abstract as parameters. -/
structure GraphCtx where
  node_station_info : List (ℚ × ℚ)
  node_monthly_interaction : List (List (List ℚ))
  graph_neighbors : List (List ℚ)
  graph_lines : List (List ℚ)
  graph_transfer : List (List ℚ)
  traffic_data_index : List ℕ
  train_data : List (List ℚ)
  daily_slots : ℚ
  test_ratio : ℚ
  threshold_distance : ℚ
  threshold_correlation : ℚ
  threshold_interaction : ℚ
  dist : (ℚ × ℚ) → (ℚ × ℚ) → ℚ
  corr : List ℚ → List ℚ → ℚ

/-- Modelled from the spec: `GraphBuilder.distance_adjacent` (module
`UCTB.model_unit`, not among the sources under verification): square 0/1
adjacency over the given coordinates, entry 1 iff the distance is larger
than the threshold (the documented comparison direction, lines 44-46). -/
def distance_adjacent (dist : (ℚ × ℚ) → (ℚ × ℚ) → ℚ) (coords : List (ℚ × ℚ)) (θ : ℚ) :
    List (List ℚ) :=
  (List.range coords.length).map (fun i =>
    (List.range coords.length).map (fun j =>
      if dist (coords.getD i (0, 0)) (coords.getD j (0, 0)) > θ then 1 else 0))

/-- Modelled from the spec: `GraphBuilder.correlation_adjacent`: square
0/1 adjacency over the columns of the given series, entry 1 iff the
correlation is larger than the threshold. -/
def correlation_adjacent (corr : List ℚ → List ℚ → ℚ) (data : List (List ℚ)) (θ : ℚ) :
    List (List ℚ) :=
  (List.range (ncols data)).map (fun i =>
    (List.range (ncols data)).map (fun j =>
      if corr (column data i) (column data j) > θ then 1 else 0))

/-- Modelled from the spec: `GraphBuilder.interaction_adjacent`:
elementwise thresholding of the (already symmetrized) interaction count
matrix. -/
def interaction_adjacent (m : List (List ℚ)) (θ : ℚ) : List (List ℚ) :=
  m.map (fun row => row.map (fun x => if x > θ then 1 else 0))

/-- Row sum (degree) of an adjacency matrix. -/
def degreeOf (a : List (List ℚ)) (i : ℕ) : ℚ := (a.getD i []).sum

/-- Modelled from the spec: `GraphBuilder.adjacent_to_laplacian`, a
degree-normalized square operator of the same shape as its input.  The
spec leaves the exact normalization open ("document exact normalization
used"); we use the combinatorial form `D - A`, which has the same shape
behaviour as any of the degree-normalized variants. -/
def adjacent_to_laplacian (a : List (List ℚ)) : List (List ℚ) :=
  List.mapIdx (fun i row => List.mapIdx (fun j x => (if i = j then degreeOf a i else 0) - x) row) a

/-- numpy `transpose` of a 2-D array. -/
def transposeQ (m : List (List ℚ)) : List (List ℚ) :=
  (List.range (ncols m)).map (fun j => column m j)

/-- Elementwise sum of two matrices of the same shape. -/
def matAdd (m1 m2 : List (List ℚ)) : List (List ℚ) :=
  List.zipWith (fun r1 r2 => List.zipWith (fun a b => a + b) r1 r2) m1 m2

/-- `np.sum(stack, axis=0)` for a stack of `k × k` matrices. -/
def sumMats (k : ℕ) (ms : List (List (List ℚ))) : List (List ℚ) :=
  ms.foldl matAdd (List.replicate k (List.replicate k (0 : ℚ)))

/-- The `distance` adjacency of `build_graph` (lines 379-383):
`lat_lng_list[traffic_data_index]` fed to `distance_adjacent`. -/
def graph_distance_am (ctx : GraphCtx) : List (List ℚ) :=
  distance_adjacent ctx.dist
    (ctx.traffic_data_index.map (fun j => ctx.node_station_info.getD j (0, 0)))
    ctx.threshold_distance

/-- The `interaction` adjacency of `build_graph` (lines 385-395): monthly
interactions re-indexed through `traffic_data_index` on both node axes,
split (train part), last 12 months summed, symmetrized, thresholded. -/
def graph_interaction_am (ctx : GraphCtx) : List (List ℚ) :=
  let monthly := ctx.node_monthly_interaction.map (fun month =>
    ctx.traffic_data_index.map (fun i =>
      ctx.traffic_data_index.map (fun j => (month.getD i []).getD j 0)))
  let trainMonthly := (split_data monthly ctx.test_ratio).1
  let annually := sumMats ctx.traffic_data_index.length (pySliceFrom trainMonthly (-12))
  interaction_adjacent (matAdd annually (transposeQ annually)) ctx.threshold_interaction

/-- The `correlation` adjacency of `build_graph` (lines 398-401):
`train_data[-30 * int(daily_slots):]` fed to `correlation_adjacent`. -/
def graph_correlation_am (ctx : GraphCtx) : List (List ℚ) :=
  correlation_adjacent ctx.corr
    (pySliceFrom ctx.train_data (-(30 * (floorNat ctx.daily_slots : ℤ))))
    ctx.threshold_correlation

/-- The `line` Laplacian of `build_graph` (lines 407-410): Laplacian of
the raw line graph, then columns and rows selected through
`traffic_data_index`. -/
def graph_line_lm (ctx : GraphCtx) : List (List ℚ) :=
  let lm := adjacent_to_laplacian ctx.graph_lines
  let lmCols := lm.map (fun row => ctx.traffic_data_index.map (fun j => row.getD j 0))
  ctx.traffic_data_index.map (fun i => lmCols.getD i [])

/-- `NodeTrafficLoader.build_graph` (lines 377-415), returning the
`(AM, LM)` pair of the requested graph name (already lower-cased);
`neighbor` and `transfer` pass the raw pre-supplied adjacency straight to
the Laplacian conversion, without re-indexing. -/
def build_graph (ctx : GraphCtx) (graph_name : String) :
    Option (List (List ℚ)) × Option (List (List ℚ)) :=
  if graph_name = "distance" then
    (some (graph_distance_am ctx), some (adjacent_to_laplacian (graph_distance_am ctx)))
  else if graph_name = "interaction" then
    (some (graph_interaction_am ctx), some (adjacent_to_laplacian (graph_interaction_am ctx)))
  else if graph_name = "correlation" then
    (some (graph_correlation_am ctx), some (adjacent_to_laplacian (graph_correlation_am ctx)))
  else if graph_name = "neighbor" then
    (none, some (adjacent_to_laplacian ctx.graph_neighbors))
  else if graph_name = "line" then
    (none, some (graph_line_lm ctx))
  else if graph_name = "transfer" then
    (none, some (adjacent_to_laplacian ctx.graph_transfer))
  else (none, none)

/-- numpy `shape` of a 2-D array in the list model. -/
def shape2 (m : List (List ℚ)) : ℕ × ℕ := (m.length, ncols m)

/-- A square matrix over `k` nodes: `k` rows, each of length `k`. -/
def IsSquare (k : ℕ) (m : List (List ℚ)) : Prop :=
  m.length = k ∧ ∀ row ∈ m, row.length = k

/-- The shape invariant of a 3-D array: `a` rows, each holding `b` node
vectors of length `k`. -/
def Shape3 (a b k : ℕ) (h : List (List (List ℚ))) : Prop :=
  h.length = a ∧
  ∀ r, r < a → (h.getD r []).length = b ∧ ∀ i, i < b → ((h.getD r []).getD i []).length = k

/-! ## Concrete datasets and configurations used by witnesses -/

/-- A small well-formed dataset: four slots, one active node, external
rows aligned with the traffic rows. -/
def rawW : RawData :=
  { node_traffic := [[2], [2], [2], [2]]
    daily_slots := 1
    external_rows := [[0], [0], [0], [0]]
    node_station_info := []
    node_monthly_interaction := []
    graph_neighbors := []
    graph_lines := []
    graph_transfer := [] }

/-- A small configuration: half/half split, closeness-only windows. -/
def cfgW : Config :=
  { dataRange := .all
    trainDataLength := .all
    test_ratio := 1 / 2
    closeness_len := 1
    period_len := 0
    trend_len := 0
    external_lstm_len := 5
    target_length := 1
    normalize := false
    externalUse := true }

/-- Two-slot dataset whose single node has whole-series mean activity
`1/2`, failing the activity filter. -/
def rawA : RawData :=
  { node_traffic := [[1], [0]]
    daily_slots := 1
    external_rows := []
    node_station_info := []
    node_monthly_interaction := []
    graph_neighbors := []
    graph_lines := []
    graph_transfer := [] }

/-- Same as `rawA` except at the test slot (row 1), where the value 5
lifts the whole-series mean activity to 3, passing the filter. -/
def rawB : RawData := { rawA with node_traffic := [[1], [5]] }

/-- Same as `rawB` except at the test slot (row 1); the node stays kept. -/
def rawB2 : RawData := { rawA with node_traffic := [[1], [7]] }

/-- `cfgW` with normalization on and external features off. -/
def cfgN : Config := { cfgW with normalize := true, externalUse := false }

/-- A graph context with one kept node but raw static graphs over two
nodes. -/
def ctxC5 : GraphCtx :=
  { node_station_info := [(0, 0), (1, 1)]
    node_monthly_interaction := [[[1, 2], [3, 4]]]
    graph_neighbors := [[0, 1], [1, 0]]
    graph_lines := [[0, 1], [1, 0]]
    graph_transfer := [[0, 1], [1, 0]]
    traffic_data_index := [0]
    train_data := [[3]]
    daily_slots := 1
    test_ratio := 1 / 2
    threshold_distance := 0
    threshold_correlation := 0
    threshold_interaction := 0
    dist := fun _ _ => 0
    corr := fun _ _ => 0 }

/-- A tiny loader state for exercising `make_concat`: one sample row, one
station, closeness length 1, period length 1, trend length 0. -/
def loaderW : Loader :=
  { traffic_data_index := [0]
    station_number := 1
    closeness_len := 1
    period_len := 1
    trend_len := 0
    train_data := []
    test_data := []
    train_closeness := [[[[5]]]]
    train_period := [[[[7]]]]
    train_trend := []
    train_y := [[[9]]]
    test_closeness := []
    test_period := []
    test_trend := []
    test_y := []
    train_sequence_len := 1
    test_sequence_len := 0
    train_ef := []
    test_ef := []
    train_lstm_ef := none
    test_lstm_ef := none }

end UCTB

namespace UCTB

/-! ## Helper lemmas -/

theorem getD_map_lt {α β : Type} (f : α → β) (l : List α) (n : ℕ) (h : n < l.length)
    (d : β) (d' : α) : (l.map f).getD n d = f (l.getD n d') := by
  rw [List.getD_eq_getElem?_getD, List.getElem?_map, List.getD_eq_getElem?_getD,
    List.getElem?_eq_getElem h]
  simp

theorem pyIdx_nonneg_of_le {len : ℕ} {i : ℤ} (h0 : 0 ≤ i) (h : i ≤ (len : ℤ)) :
    pyIdx len i = i.toNat := by
  unfold pyIdx
  rw [if_neg (by omega)]
  omega

theorem pySliceFrom_nonneg {α : Type} (a : List α) (i : ℤ) (h0 : 0 ≤ i)
    (h : i ≤ (a.length : ℤ)) : pySliceFrom a i = a.drop i.toNat := by
  unfold pySliceFrom
  rw [pyIdx_nonneg_of_le h0 h]

theorem expandStep_spec {α : Type} (train test : List α) (m : ℕ) (h : m ≤ train.length) :
    expandStep ((train.length : ℤ) - (m : ℤ)) train test
      = train.drop (train.length - m) ++ test ∧
    (expandStep ((train.length : ℤ) - (m : ℤ)) train test).length = test.length + m ∧
    (train.drop (train.length - m)).length = m := by
  have hdl : (train.drop (train.length - m)).length = m := by
    rw [List.length_drop]; omega
  have he : expandStep ((train.length : ℤ) - (m : ℤ)) train test
      = train.drop (train.length - m) ++ test := by
    unfold expandStep
    rw [pySliceFrom_nonneg _ _ (by omega) (by omega)]
    congr 1
    congr 1
    omega
  refine ⟨he, ?_, hdl⟩
  rw [he, List.length_append, hdl]
  omega

theorem truncStep_pos {α : Type} (d : ℕ) (ds : ℚ) (a : List α)
    (h : 1 ≤ floorNat ((d : ℚ) * ds)) :
    truncStep d ds a = a.drop (a.length - floorNat ((d : ℚ) * ds)) := by
  unfold truncStep pySliceFrom pyIdx
  rw [if_pos (by omega)]
  congr 1
  omega

theorem truncStep_zero {α : Type} (d : ℕ) (ds : ℚ) (a : List α)
    (h : floorNat ((d : ℚ) * ds) = 0) : truncStep d ds a = a := by
  unfold truncStep pySliceFrom pyIdx
  rw [h]
  rw [if_neg (by omega)]
  simp

theorem buildLoader_ok_elim {raw : RawData} {cfg : Config} {L : Loader}
    (h : buildLoader raw cfg = .ok L) : L = mkLoader raw cfg := by
  unfold buildLoader at h
  split at h
  · simp at h
  · split at h
    · simp at h
    · split at h
      · simp at h
      · exact (Except.ok.inj h).symm

theorem buildLoader_eq_ok {raw : RawData} {cfg : Config}
    (h1 : ¬(cfg.test_ratio > 1 ∨ cfg.test_ratio < 0))
    (h2 : ¬(cfg.closeness_len = 0 ∧ cfg.period_len = 0 ∧ cfg.trend_len = 0))
    (h3 : ¬(0 < (external_feature raw cfg).length ∧ cfg.external_lstm_len = 0)) :
    buildLoader raw cfg = .ok (mkLoader raw cfg) := by
  unfold buildLoader
  rw [if_neg h1, if_neg h2, if_neg h3]

theorem pyIdx_le (len : ℕ) (i : ℤ) : pyIdx len i ≤ len := by
  unfold pyIdx
  split <;> omega

theorem length_pySliceFrom {α : Type} (a : List α) (s : ℤ) :
    (pySliceFrom a s).length = a.length - pyIdx a.length s := by
  unfold pySliceFrom
  rw [List.length_drop]

theorem length_pySlice {α : Type} (a : List α) (s e : ℤ) :
    (pySlice a s e).length = pyIdx a.length e - pyIdx a.length s := by
  unfold pySlice
  rw [List.length_drop, List.length_take]
  have := pyIdx_le a.length e
  omega

theorem length_sliceRange {α : Type} (a : List α) (r0 r1 : ℕ) :
    (sliceRange a r0 r1).length = min r1 a.length - r0 := by
  unfold sliceRange
  rw [List.length_drop, List.length_take]

theorem length_min_max_normal (nz : Normalizer) (a : List (List ℚ)) :
    (nz.min_max_normal a).length = a.length := by
  unfold Normalizer.min_max_normal
  rw [List.length_map]

theorem length_traffic_data (raw : RawData) (cfg : Config) :
    (traffic_data raw cfg).length
      = min (resolved_range raw cfg.dataRange).2 raw.node_traffic.length
          - (resolved_range raw cfg.dataRange).1 := by
  unfold traffic_data
  rw [List.length_map, length_sliceRange]

theorem length_external_feature_eq {raw : RawData} {cfg : Config}
    (hE : 0 < (external_feature raw cfg).length)
    (hExt : raw.external_rows.length = raw.node_traffic.length) :
    (external_feature raw cfg).length = (traffic_data raw cfg).length := by
  unfold external_feature at hE ⊢
  by_cases hc : cfg.externalUse = true ∧ 0 < raw.external_rows.length
  · rw [if_pos hc] at hE ⊢
    rw [length_sliceRange, length_traffic_data, hExt]
  · rw [if_neg hc] at hE
    simp at hE

theorem length_split1 {α : Type} (a : List α) (r : ℚ) :
    (split_data a r).1.length = min (splitPoint a.length r) a.length := by
  unfold split_data
  rw [List.length_take]

theorem length_split2 {α : Type} (a : List α) (r : ℚ) :
    (split_data a r).2.length = a.length - splitPoint a.length r := by
  unfold split_data
  rw [List.length_drop]

theorem length_train_norm (raw : RawData) (cfg : Config) :
    (train_norm raw cfg).length = (train_split raw cfg).length := by
  unfold train_norm
  split
  · rw [length_min_max_normal]
  · rfl

theorem length_test_norm (raw : RawData) (cfg : Config) :
    (test_norm raw cfg).length = (test_split raw cfg).length := by
  unfold test_norm
  split
  · rw [length_min_max_normal]
  · rfl

theorem length_truncStep {α : Type} (d : ℕ) (ds : ℚ) (a : List α) :
    (truncStep d ds a).length = a.length - pyIdx a.length (-(floorNat ((d : ℚ) * ds) : ℤ)) := by
  unfold truncStep
  rw [length_pySliceFrom]

theorem length_ef_train_trunc_eq {raw : RawData} {cfg : Config}
    (h : (ef_train_split raw cfg).length = (train_split raw cfg).length) :
    (ef_train_trunc raw cfg).length = (train_trunc raw cfg).length := by
  unfold ef_train_trunc train_trunc
  have hn := length_train_norm raw cfg
  cases cfg.trainDataLength with
  | all => rw [h, hn]
  | days d => rw [length_truncStep, length_truncStep, h, hn]

theorem length_expandStep {α : Type} (esi : ℤ) (train test : List α) :
    (expandStep esi train test).length
      = (train.length - pyIdx train.length esi) + test.length := by
  unfold expandStep
  rw [List.length_append, length_pySliceFrom]

theorem length_move_sample_closeness (ds : ℚ) (c p t tgt : ℕ) (data : List (List ℚ)) :
    (move_sample_closeness ds c p t tgt data).length
      = if c = 0 then 0 else sampleCount ds c p t tgt data.length := by
  unfold move_sample_closeness
  split <;> simp

theorem length_move_sample_period (ds : ℚ) (c p t tgt : ℕ) (data : List (List ℚ)) :
    (move_sample_period ds c p t tgt data).length
      = if p = 0 then 0 else sampleCount ds c p t tgt data.length := by
  unfold move_sample_period
  split <;> simp

theorem length_move_sample_trend (ds : ℚ) (c p t tgt : ℕ) (data : List (List ℚ)) :
    (move_sample_trend ds c p t tgt data).length
      = if t = 0 then 0 else sampleCount ds c p t tgt data.length := by
  unfold move_sample_trend
  split <;> simp

theorem seq_len_move (ds : ℚ) (c p t : ℕ) (data : List (List ℚ))
    (h : ¬(c = 0 ∧ p = 0 ∧ t = 0)) :
    seq_len (move_sample_closeness ds c p t 1 data) (move_sample_period ds c p t 1 data)
        (move_sample_trend ds c p t 1 data)
      = sampleCount ds c p t 1 data.length := by
  unfold seq_len
  rw [length_move_sample_closeness, length_move_sample_period, length_move_sample_trend]
  split_ifs <;> omega

theorem one_le_maxLookback {ds : ℚ} {c p t : ℕ} (hds : 1 ≤ ds)
    (h : ¬(c = 0 ∧ p = 0 ∧ t = 0)) : 1 ≤ maxLookback ds c p t := by
  unfold maxLookback floorNat
  rcases Nat.eq_zero_or_pos c with hc | hc
  · rcases Nat.eq_zero_or_pos p with hp | hp
    · rcases Nat.eq_zero_or_pos t with ht | ht
      · exact absurd ⟨hc, hp, ht⟩ h
      · have h1 : (1 : ℚ) ≤ ds * 7 * (t : ℚ) := by
          have ht1 : (1 : ℚ) ≤ (t : ℚ) := by exact_mod_cast ht
          nlinarith
        have h2 : (1 : ℤ) ≤ ⌊ds * 7 * (t : ℚ)⌋ := by
          rw [Int.le_floor]
          exact_mod_cast h1
        omega
    · have h1 : (1 : ℚ) ≤ ds * (p : ℚ) := by
        have hp1 : (1 : ℚ) ≤ (p : ℚ) := by exact_mod_cast hp
        nlinarith
      have h2 : (1 : ℤ) ≤ ⌊ds * (p : ℚ)⌋ := by
        rw [Int.le_floor]
        exact_mod_cast h1
      omega
  · omega

theorem buildLoader_ok_conditions {raw : RawData} {cfg : Config} {L : Loader}
    (h : buildLoader raw cfg = .ok L) :
    ¬(cfg.test_ratio > 1 ∨ cfg.test_ratio < 0) ∧
    ¬(cfg.closeness_len = 0 ∧ cfg.period_len = 0 ∧ cfg.trend_len = 0) ∧
    ¬(0 < (external_feature raw cfg).length ∧ cfg.external_lstm_len = 0) := by
  unfold buildLoader at h
  split at h
  · simp at h
  · split at h
    · simp at h
    · split at h
      · simp at h
      · exact ⟨by assumption, by assumption, by assumption⟩

theorem ncols_square_map (n : ℕ) (f : ℕ → List ℚ) (hf : 0 < n → (f 0).length = n) :
    ncols ((List.range n).map f) = n := by
  cases n with
  | zero => rfl
  | succ m =>
    rw [List.range_succ_eq_map]
    simp only [List.map_cons, ncols, List.headD]
    exact hf (Nat.succ_pos m)

theorem shape2_adjacent_to_laplacian (a : List (List ℚ)) :
    shape2 (adjacent_to_laplacian a) = shape2 a := by
  unfold shape2 adjacent_to_laplacian
  cases a with
  | nil => rfl
  | cons row rest =>
    rw [List.mapIdx_cons]
    simp [ncols, List.length_mapIdx]

theorem shape2_distance_adjacent (dist : (ℚ × ℚ) → (ℚ × ℚ) → ℚ) (coords : List (ℚ × ℚ))
    (θ : ℚ) : shape2 (distance_adjacent dist coords θ) = (coords.length, coords.length) := by
  unfold shape2 distance_adjacent
  rw [List.length_map, List.length_range, ncols_square_map]
  intro _
  rw [List.length_map, List.length_range]

theorem shape2_correlation_adjacent (corr : List ℚ → List ℚ → ℚ) (data : List (List ℚ))
    (θ : ℚ) : shape2 (correlation_adjacent corr data θ) = (ncols data, ncols data) := by
  unfold shape2 correlation_adjacent
  rw [List.length_map, List.length_range, ncols_square_map]
  intro _
  rw [List.length_map, List.length_range]

theorem shape2_interaction_adjacent (m : List (List ℚ)) (θ : ℚ) :
    shape2 (interaction_adjacent m θ) = shape2 m := by
  unfold shape2 interaction_adjacent
  cases m with
  | nil => rfl
  | cons row rest => simp [ncols]

theorem isSquare_ncols {k : ℕ} {m : List (List ℚ)} (h : IsSquare k m) : ncols m = k := by
  cases m with
  | nil =>
    have := h.1
    simp only [List.length_nil] at this
    simp [ncols, ← this]
  | cons row rest => exact h.2 row (List.mem_cons_self row rest)

theorem isSquare_shape2 {k : ℕ} {m : List (List ℚ)} (h : IsSquare k m) :
    shape2 m = (k, k) := by
  unfold shape2
  rw [h.1, isSquare_ncols h]

theorem matAdd_isSquare {k : ℕ} {m1 m2 : List (List ℚ)} (h1 : IsSquare k m1)
    (h2 : IsSquare k m2) : IsSquare k (matAdd m1 m2) := by
  constructor
  · unfold matAdd
    rw [List.length_zipWith, h1.1, h2.1, min_self]
  · intro row hrow
    unfold matAdd at hrow
    rw [List.mem_iff_getElem] at hrow
    obtain ⟨i, hi, he⟩ := hrow
    rw [List.getElem_zipWith] at he
    rw [← he, List.length_zipWith, h1.2 _ (List.getElem_mem _), h2.2 _ (List.getElem_mem _),
      min_self]

theorem foldl_matAdd_isSquare {k : ℕ} (ms : List (List (List ℚ)))
    (hms : ∀ m ∈ ms, IsSquare k m) :
    ∀ init, IsSquare k init → IsSquare k (ms.foldl matAdd init) := by
  induction ms with
  | nil => exact fun init h => h
  | cons m rest ih =>
    intro init h
    exact ih (fun x hx => hms x (List.mem_cons_of_mem _ hx)) _
      (matAdd_isSquare h (hms m (List.mem_cons_self _ _)))

theorem sumMats_isSquare {k : ℕ} (ms : List (List (List ℚ)))
    (hms : ∀ m ∈ ms, IsSquare k m) : IsSquare k (sumMats k ms) := by
  unfold sumMats
  apply foldl_matAdd_isSquare _ hms
  refine ⟨List.length_replicate _ _, ?_⟩
  intro row hrow
  rw [List.eq_of_mem_replicate hrow]
  exact List.length_replicate _ _

theorem transposeQ_isSquare {k : ℕ} {m : List (List ℚ)} (h : IsSquare k m) :
    IsSquare k (transposeQ m) := by
  constructor
  · unfold transposeQ
    rw [List.length_map, List.length_range, isSquare_ncols h]
  · intro row hrow
    unfold transposeQ at hrow
    rw [List.mem_map] at hrow
    obtain ⟨j, _, he⟩ := hrow
    rw [← he]
    unfold column
    rw [List.length_map, h.1]

theorem ncols_map_cons (f : ℕ → List ℚ) (i0 : ℕ) (rest : List ℕ) :
    ncols ((i0 :: rest).map f) = (f i0).length := rfl

theorem pySliceFrom_ne_nil {α : Type} (a : List α) (s : ℤ) (hs : s ≤ 0) (ha : a ≠ []) :
    pySliceFrom a s ≠ [] := by
  have hlen := length_pySliceFrom a s
  have hpos : 0 < a.length := List.length_pos.mpr ha
  have hlt : pyIdx a.length s < a.length := by
    unfold pyIdx
    split <;> omega
  rw [← List.length_pos, hlen]
  omega

theorem ncols_pySliceFrom {k : ℕ} (a : List (List ℚ)) (s : ℤ) (hs : s ≤ 0) (ha : a ≠ [])
    (hrows : ∀ row ∈ a, row.length = k) : ncols (pySliceFrom a s) = k := by
  have hne : pySliceFrom a s ≠ [] := pySliceFrom_ne_nil a s hs ha
  cases he : pySliceFrom a s with
  | nil => exact absurd he hne
  | cons row rest =>
    have h1 : row ∈ pySliceFrom a s := by
      rw [he]
      exact List.mem_cons_self _ _
    have h2 : row ∈ a := by
      unfold pySliceFrom at h1
      exact List.mem_of_mem_drop h1
    simp [ncols, hrows row h2]

theorem mkLoader_train_ef (raw : RawData) (cfg : Config) :
    (mkLoader raw cfg).train_ef
      = if 0 < (external_feature raw cfg).length then
          tailSlice (train_sequence_len raw cfg) cfg.target_length (ef_train_trunc raw cfg)
        else ef_train_trunc raw cfg := rfl

theorem mkLoader_test_ef (raw : RawData) (cfg : Config) :
    (mkLoader raw cfg).test_ef
      = if 0 < (external_feature raw cfg).length then
          tailSlice (test_sequence_len raw cfg) cfg.target_length (ef_test_expand raw cfg)
        else ef_test_expand raw cfg := rfl

theorem mkLoader_train_sequence_len (raw : RawData) (cfg : Config) :
    (mkLoader raw cfg).train_sequence_len = train_sequence_len raw cfg := rfl

theorem mkLoader_test_sequence_len (raw : RawData) (cfg : Config) :
    (mkLoader raw cfg).test_sequence_len = test_sequence_len raw cfg := rfl

theorem mkLoader_train_data (raw : RawData) (cfg : Config) :
    (mkLoader raw cfg).train_data = train_trunc raw cfg := rfl

theorem getD_set_self {α : Type} (l : List α) (i : ℕ) (x d : α) (h : i < l.length) :
    (l.set i x).getD i d = x := by
  rw [List.getD_eq_getElem?_getD, List.getElem?_set, if_pos rfl, if_pos h]
  rfl

theorem getD_set_ne {α : Type} (l : List α) {i j : ℕ} (x d : α) (h : i ≠ j) :
    (l.set i x).getD j d = l.getD j d := by
  rw [List.getD_eq_getElem?_getD, List.getElem?_set, if_neg h, ← List.getD_eq_getElem?_getD]

theorem getD_mapIdx {α : Type} (f : ℕ → α → α) (l : List α) (n : ℕ) (h : n < l.length)
    (d : α) : (List.mapIdx f l).getD n d = f n (l.getD n d) := by
  rw [List.getD_eq_getElem?_getD, List.getElem?_mapIdx, List.getElem?_eq_getElem h,
    List.getD_eq_getElem?_getD, List.getElem?_eq_getElem h]
  rfl

theorem getD_replicate_lt {α : Type} (n : ℕ) (x d : α) (r : ℕ) (h : r < n) :
    (List.replicate n x).getD r d = x := by
  rw [List.getD_eq_getElem?_getD, List.getElem?_replicate, if_pos h]
  rfl

theorem zeros3_shape (a b k : ℕ) : Shape3 a b k (zeros3 a b k) := by
  refine ⟨List.length_replicate _ _, ?_⟩
  intro r hr
  unfold zeros3
  rw [getD_replicate_lt _ _ _ _ hr]
  refine ⟨List.length_replicate _ _, ?_⟩
  intro i hi
  rw [getD_replicate_lt _ _ _ _ hi]
  exact List.length_replicate _ _

theorem writeCol_shape {a b k : ℕ} {h : List (List (List ℚ))} (hS : Shape3 a b k h)
    (i kk : ℕ) (v : ℕ → ℚ) : Shape3 a b k (writeCol h i kk v) := by
  obtain ⟨hlen, hrows⟩ := hS
  refine ⟨by unfold writeCol; rw [List.length_mapIdx, hlen], ?_⟩
  intro r hr
  have hrl : r < h.length := by omega
  unfold writeCol
  rw [getD_mapIdx _ _ _ hrl]
  have hml : (h.getD r []).length = b := (hrows r hr).1
  refine ⟨by rw [List.length_set, hml], ?_⟩
  intro i2 hi2
  by_cases hii : i2 = i
  · subst hii
    have hib : i2 < (h.getD r []).length := by rw [hml]; exact hi2
    rw [getD_set_self _ _ _ _ hib, List.length_set]
    exact (hrows r hr).2 i2 hi2
  · rw [getD_set_ne _ _ _ (fun e => hii e.symm)]
    exact (hrows r hr).2 i2 hi2

theorem ent3_writeCol {a b k : ℕ} {h : List (List (List ℚ))} (hS : Shape3 a b k h)
    {i kk : ℕ} (v : ℕ → ℚ) (hkk : kk < k)
    {r i2 k2 : ℕ} (hr : r < a) (hi2 : i2 < b) (hk2 : k2 < k) :
    ent3 (writeCol h i kk v) r i2 k2
      = if i2 = i ∧ k2 = kk then v r else ent3 h r i2 k2 := by
  obtain ⟨hlen, hrows⟩ := hS
  have hrl : r < h.length := by omega
  unfold ent3 writeCol
  rw [getD_mapIdx _ _ _ hrl]
  have hml : (h.getD r []).length = b := (hrows r hr).1
  by_cases hii : i2 = i
  · subst hii
    have hib : i2 < (h.getD r []).length := by rw [hml]; exact hi2
    rw [getD_set_self _ _ _ _ hib]
    by_cases hk : k2 = kk
    · subst hk
      have hkb : k2 < ((h.getD r []).getD i2 []).length := by
        rw [(hrows r hr).2 i2 hi2]
        exact hk2
      rw [getD_set_self _ _ _ _ hkb, if_pos ⟨rfl, rfl⟩]
    · rw [getD_set_ne _ _ _ (fun e => hk e.symm), if_neg (by tauto)]
  · rw [getD_set_ne _ _ _ (fun e => hii e.symm), if_neg (by tauto)]

theorem foldWrites_spec {a b k : ℕ} (i off : ℕ) (vals : ℕ → ℕ → ℚ) :
    ∀ (m : ℕ) (h : List (List (List ℚ))), Shape3 a b k h → off + m ≤ k →
      Shape3 a b k ((List.range m).foldl (fun acc j => writeCol acc i (off + j) (vals j)) h) ∧
      (∀ r i2 k2, r < a → i2 < b → k2 < k →
        ent3 ((List.range m).foldl (fun acc j => writeCol acc i (off + j) (vals j)) h) r i2 k2
          = if i2 = i ∧ off ≤ k2 ∧ k2 < off + m then vals (k2 - off) r
            else ent3 h r i2 k2) := by
  intro m
  induction m with
  | zero =>
    intro h hS _
    simp only [List.range_zero, List.foldl_nil]
    refine ⟨hS, ?_⟩
    intro r i2 k2 _ _ _
    rw [if_neg (by omega)]
  | succ n ih =>
    intro h hS hm
    obtain ⟨ihS, ihE⟩ := ih h hS (by omega)
    have hstep : (List.range (n + 1)).foldl (fun acc j => writeCol acc i (off + j) (vals j)) h
        = writeCol ((List.range n).foldl (fun acc j => writeCol acc i (off + j) (vals j)) h)
            i (off + n) (vals n) := by
      rw [List.range_succ, List.foldl_append, List.foldl_cons, List.foldl_nil]
    rw [hstep]
    refine ⟨writeCol_shape ihS _ _ _, ?_⟩
    intro r i2 k2 hr hi2 hk2
    rw [ent3_writeCol ihS (vals n) (by omega) hr hi2 hk2, ihE r i2 k2 hr hi2 hk2]
    by_cases h1 : i2 = i ∧ k2 = off + n
    · rw [if_pos h1, if_pos ⟨h1.1, by omega, by omega⟩, show k2 - off = n by omega]
    · rw [if_neg h1]
      by_cases h2 : i2 = i ∧ off ≤ k2 ∧ k2 < off + n
      · rw [if_pos h2, if_pos ⟨h2.1, h2.2.1, by omega⟩]
      · have hno : ¬(i2 = i ∧ off ≤ k2 ∧ k2 < off + (n + 1)) := by
          intro hc
          by_cases hke : k2 = off + n
          · exact h1 ⟨hc.1, hke⟩
          · exact h2 ⟨hc.1, hc.2.1, by omega⟩
        rw [if_neg h2, if_neg hno]

theorem concat_fill_spec (len : ℕ) (nodes : List ℕ) (c p t : ℕ)
    (clos per tre : List (List (List (List ℚ)))) :
    Shape3 len nodes.length (c + p + t) (concat_fill len nodes c p t clos per tre) ∧
    (∀ r i2 k2, r < len → i2 < nodes.length → k2 < c + p + t →
      ent3 (concat_fill len nodes c p t clos per tre) r i2 k2
        = if i2 < nodes.length then
            (if k2 < c then ent4last clos r (nodes.getD i2 0) k2
             else if k2 < c + p then ent4last per r (nodes.getD i2 0) (k2 - c)
             else ent4last tre r (nodes.getD i2 0) (k2 - c - p))
          else 0) := by
  set b := nodes.length with hb
  set k := c + p + t with hk
  have hbody : ∀ i h, i < b → Shape3 len b k h →
      Shape3 len b k
        ((List.range t).foldl
          (fun h tt => writeCol h i (c + p + tt) (fun r => ent4last tre r (nodes.getD i 0) tt))
          ((List.range p).foldl
            (fun h pp => writeCol h i (c + pp) (fun r => ent4last per r (nodes.getD i 0) pp))
            ((List.range c).foldl
              (fun h cc => writeCol h i cc (fun r => ent4last clos r (nodes.getD i 0) cc)) h))) ∧
      (∀ r i2 k2, r < len → i2 < b → k2 < k →
        ent3 ((List.range t).foldl
          (fun h tt => writeCol h i (c + p + tt) (fun r => ent4last tre r (nodes.getD i 0) tt))
          ((List.range p).foldl
            (fun h pp => writeCol h i (c + pp) (fun r => ent4last per r (nodes.getD i 0) pp))
            ((List.range c).foldl
              (fun h cc => writeCol h i cc (fun r => ent4last clos r (nodes.getD i 0) cc)) h)))
          r i2 k2
        = if i2 = i then
            (if k2 < c then ent4last clos r (nodes.getD i 0) k2
             else if k2 < c + p then ent4last per r (nodes.getD i 0) (k2 - c)
             else ent4last tre r (nodes.getD i 0) (k2 - c - p))
          else ent3 h r i2 k2) := by
    intro i h hi hS
    have hcf : (fun (acc : List (List (List ℚ))) cc =>
          writeCol acc i cc (fun r => ent4last clos r (nodes.getD i 0) cc))
        = (fun acc cc => writeCol acc i (0 + cc)
            (fun r => ent4last clos r (nodes.getD i 0) cc)) := by
      funext acc cc
      rw [Nat.zero_add]
    have h1 := foldWrites_spec (a := len) (b := b) (k := k) i 0
      (fun cc r => ent4last clos r (nodes.getD i 0) cc) c h hS (by omega)
    rw [← hcf] at h1
    have h2 := foldWrites_spec (a := len) (b := b) (k := k) i c
      (fun pp r => ent4last per r (nodes.getD i 0) pp) p _ h1.1 (by omega)
    have h3 := foldWrites_spec (a := len) (b := b) (k := k) i (c + p)
      (fun tt r => ent4last tre r (nodes.getD i 0) tt) t _ h2.1 (by omega)
    refine ⟨h3.1, ?_⟩
    intro r i2 k2 hr hi2 hk2
    rw [h3.2 r i2 k2 hr hi2 hk2, h2.2 r i2 k2 hr hi2 hk2, h1.2 r i2 k2 hr hi2 hk2]
    split_ifs <;> first | rfl | omega | (congr 1; omega)
  have hmain : ∀ m, m ≤ b →
      Shape3 len b k ((List.range m).foldl (fun h i =>
        (List.range t).foldl
          (fun h tt => writeCol h i (c + p + tt) (fun r => ent4last tre r (nodes.getD i 0) tt))
          ((List.range p).foldl
            (fun h pp => writeCol h i (c + pp) (fun r => ent4last per r (nodes.getD i 0) pp))
            ((List.range c).foldl
              (fun h cc => writeCol h i cc (fun r => ent4last clos r (nodes.getD i 0) cc)) h)))
        (zeros3 len b k)) ∧
      (∀ r i2 k2, r < len → i2 < b → k2 < k →
        ent3 ((List.range m).foldl (fun h i =>
          (List.range t).foldl
            (fun h tt => writeCol h i (c + p + tt) (fun r => ent4last tre r (nodes.getD i 0) tt))
            ((List.range p).foldl
              (fun h pp => writeCol h i (c + pp) (fun r => ent4last per r (nodes.getD i 0) pp))
              ((List.range c).foldl
                (fun h cc => writeCol h i cc (fun r => ent4last clos r (nodes.getD i 0) cc)) h)))
          (zeros3 len b k)) r i2 k2
        = if i2 < m then
            (if k2 < c then ent4last clos r (nodes.getD i2 0) k2
             else if k2 < c + p then ent4last per r (nodes.getD i2 0) (k2 - c)
             else ent4last tre r (nodes.getD i2 0) (k2 - c - p))
          else ent3 (zeros3 len b k) r i2 k2) := by
    intro m
    induction m with
    | zero =>
      intro _
      simp only [List.range_zero, List.foldl_nil]
      refine ⟨zeros3_shape len b k, ?_⟩
      intro r i2 k2 _ _ _
      rw [if_neg (by omega)]
    | succ n ih =>
      intro hmb
      obtain ⟨ihS, ihE⟩ := ih (by omega)
      rw [List.range_succ, List.foldl_append, List.foldl_cons, List.foldl_nil]
      obtain ⟨bS, bE⟩ := hbody n _ (by omega) ihS
      refine ⟨bS, ?_⟩
      intro r i2 k2 hr hi2 hk2
      rw [bE r i2 k2 hr hi2 hk2]
      by_cases hii : i2 = n
      · subst hii
        have hx : i2 < i2 + 1 := by omega
        rw [if_pos rfl, if_pos hx]
      · rw [if_neg hii, ihE r i2 k2 hr hi2 hk2]
        by_cases hlt : i2 < n
        · have hx : i2 < n + 1 := by omega
          rw [if_pos hlt, if_pos hx]
        · have hx : ¬ i2 < n + 1 := by omega
          rw [if_neg hlt, if_neg hx]
  have hfill := hmain b (le_refl b)
  unfold concat_fill
  refine ⟨hfill.1, ?_⟩
  intro r i2 k2 hr hi2 hk2
  rw [hfill.2 r i2 k2 hr hi2 hk2, if_pos hi2, if_pos hi2]

/-! ## Claims -/

/-- C8: construction aborts with the error naming `test_ratio`, before any
splitting or windowing, iff `test_ratio` lies outside `[0, 1]`; no loader
value is produced in that case (the construction returns the error
instead). -/
theorem C8_test_ratio_guard (raw : RawData) (cfg : Config) :
    buildLoader raw cfg = .error ("test_ratio ")
      ↔ (cfg.test_ratio > 1 ∨ cfg.test_ratio < 0) := by
  unfold buildLoader
  by_cases h1 : cfg.test_ratio > 1 ∨ cfg.test_ratio < 0
  · rw [if_pos h1]
    simp [h1]
  · rw [if_neg h1]
    constructor
    · intro h
      split at h
      · simp at h
      · split at h <;> simp at h
    · intro h
      exact absurd h h1

/-- C9: with a non-empty external feature matrix and `external_lstm_len = 0`,
construction does not complete: `train_lstm_ef` is still `None` at the
unconditional re-slicing (line 310) and a `TypeError` is raised; the
ratio and window-length preconditions only rule out the earlier abort
points. -/
theorem C9_lstm_zero_aborts (raw : RawData) (cfg : Config)
    (h1 : ¬(cfg.test_ratio > 1 ∨ cfg.test_ratio < 0))
    (h2 : ¬(cfg.closeness_len = 0 ∧ cfg.period_len = 0 ∧ cfg.trend_len = 0))
    (h3 : 0 < (external_feature raw cfg).length)
    (h4 : cfg.external_lstm_len = 0) :
    buildLoader raw cfg = .error ("TypeError: NoneType object is not subscriptable") := by
  unfold buildLoader
  rw [if_neg h1, if_neg h2, if_pos ⟨h3, h4⟩]

/-- C9 witness: a construction with four slots of external features and
`external_lstm_len = 0` hits the `TypeError` abort. -/
theorem C9_lstm_zero_aborts_witness :
    ¬(cfgW.test_ratio > 1 ∨ cfgW.test_ratio < 0) ∧
    ¬(cfgW.closeness_len = 0 ∧ cfgW.period_len = 0 ∧ cfgW.trend_len = 0) ∧
    0 < (external_feature rawW { cfgW with external_lstm_len := 0 }).length ∧
    buildLoader rawW { cfgW with external_lstm_len := 0 }
      = .error ("TypeError: NoneType object is not subscriptable") := by
  have h1 : ¬(cfgW.test_ratio > 1 ∨ cfgW.test_ratio < 0) := by
    simp only [cfgW]
    push_neg
    norm_num
  have h2 : ¬(cfgW.closeness_len = 0 ∧ cfgW.period_len = 0 ∧ cfgW.trend_len = 0) := by
    simp [cfgW]
  have h3 : 0 < (external_feature rawW { cfgW with external_lstm_len := 0 }).length := by
    simp [external_feature, cfgW, rawW, resolved_range, sliceRange]
  exact ⟨h1, h2, h3, C9_lstm_zero_aborts rawW { cfgW with external_lstm_len := 0 } h1 h2 h3 rfl⟩

/-- C10: `traffic_data_index` is computed from the mean over the entire
raw series, so two completed constructions over the same dataset (in
particular two that differ only in `data_range` or `test_ratio`) expose
the identical kept-node set and `station_number`. -/
theorem C10_filter_ignores_range (raw : RawData) (c1 c2 : Config) (L1 L2 : Loader)
    (h1 : buildLoader raw c1 = .ok L1) (h2 : buildLoader raw c2 = .ok L2) :
    L1.traffic_data_index = traffic_data_index raw ∧
    L1.traffic_data_index = L2.traffic_data_index ∧
    L1.station_number = L2.station_number := by
  have e1 := buildLoader_ok_elim h1
  have e2 := buildLoader_ok_elim h2
  subst e1
  subst e2
  exact ⟨rfl, rfl, rfl⟩

/-- C1: when the (possibly truncated) train partition has at least
`max_lookback` rows, the expanded test partition is exactly the last
`max_lookback` rows of the train partition stacked before the original
test partition, for the traffic data and for the external features, so
the expansion count equals `max_lookback` and the expanded length is the
original test length plus `max_lookback`. -/
theorem C1_test_expansion (raw : RawData) (cfg : Config)
    (h : maxLookback raw.daily_slots cfg.closeness_len cfg.period_len cfg.trend_len
        ≤ (train_trunc raw cfg).length)
    (hef : (ef_train_trunc raw cfg).length = (train_trunc raw cfg).length) :
    (test_expand raw cfg
        = (train_trunc raw cfg).drop ((train_trunc raw cfg).length
            - maxLookback raw.daily_slots cfg.closeness_len cfg.period_len cfg.trend_len)
          ++ test_norm raw cfg) ∧
    ((test_expand raw cfg).length = (test_norm raw cfg).length
        + maxLookback raw.daily_slots cfg.closeness_len cfg.period_len cfg.trend_len) ∧
    (((train_trunc raw cfg).drop ((train_trunc raw cfg).length
        - maxLookback raw.daily_slots cfg.closeness_len cfg.period_len cfg.trend_len)).length
      = maxLookback raw.daily_slots cfg.closeness_len cfg.period_len cfg.trend_len) ∧
    (ef_test_expand raw cfg
        = (ef_train_trunc raw cfg).drop ((ef_train_trunc raw cfg).length
            - maxLookback raw.daily_slots cfg.closeness_len cfg.period_len cfg.trend_len)
          ++ ef_test_split raw cfg) ∧
    ((ef_test_expand raw cfg).length = (ef_test_split raw cfg).length
        + maxLookback raw.daily_slots cfg.closeness_len cfg.period_len cfg.trend_len) := by
  set m := maxLookback raw.daily_slots cfg.closeness_len cfg.period_len cfg.trend_len with hm
  have htr := expandStep_spec (train_trunc raw cfg) (test_norm raw cfg) m h
  have hef2 : m ≤ (ef_train_trunc raw cfg).length := by omega
  have hefs := expandStep_spec (ef_train_trunc raw cfg) (ef_test_split raw cfg) m hef2
  have hesi : expand_start_index raw cfg = ((train_trunc raw cfg).length : ℤ) - (m : ℤ) := rfl
  have hesi2 : expand_start_index raw cfg = ((ef_train_trunc raw cfg).length : ℤ) - (m : ℤ) := by
    rw [hesi, hef]
  refine ⟨?_, ?_, htr.2.2, ?_, ?_⟩
  · show expandStep (expand_start_index raw cfg) (train_trunc raw cfg) (test_norm raw cfg) = _
    rw [hesi]
    exact htr.1
  · show (expandStep (expand_start_index raw cfg) (train_trunc raw cfg) (test_norm raw cfg)).length = _
    rw [hesi]
    exact htr.2.1
  · show expandStep (expand_start_index raw cfg) (ef_train_trunc raw cfg) (ef_test_split raw cfg) = _
    rw [hesi2]
    exact hefs.1
  · show (expandStep (expand_start_index raw cfg) (ef_train_trunc raw cfg) (ef_test_split raw cfg)).length = _
    rw [hesi2]
    exact hefs.2.1

/-- C1 witness: on the four-slot dataset with a half/half split and
closeness length 1 the test expansion borrows exactly one train row. -/
theorem C1_test_expansion_witness :
    (maxLookback rawW.daily_slots cfgW.closeness_len cfgW.period_len cfgW.trend_len
        ≤ (train_trunc rawW cfgW).length) ∧
    ((ef_train_trunc rawW cfgW).length = (train_trunc rawW cfgW).length) ∧
    ((test_expand rawW cfgW).length = (test_norm rawW cfgW).length
        + maxLookback rawW.daily_slots cfgW.closeness_len cfgW.period_len cfgW.trend_len) := by
  have hm : maxLookback rawW.daily_slots cfgW.closeness_len cfgW.period_len cfgW.trend_len = 1 := by
    simp only [maxLookback, rawW, cfgW, floorNat]
    norm_num
  have hsp : splitPoint 4 cfgW.test_ratio = 2 := by
    simp only [splitPoint, cfgW]
    norm_num [round_eq]
    omega
  have htd : traffic_data rawW cfgW = [[2], [2], [2], [2]] := by
    simp [traffic_data, traffic_data_index, rawW, cfgW, resolved_range, sliceRange, ncols,
      colMean, column, List.range_succ]
    norm_num
  have htt : (train_trunc rawW cfgW).length = 2 := by
    have h0 : train_trunc rawW cfgW = (traffic_data rawW cfgW).take
        (splitPoint (traffic_data rawW cfgW).length cfgW.test_ratio) := rfl
    rw [h0, htd]
    simp only [List.length_take, List.length_cons, List.length_nil]
    rw [hsp]
    omega
  have hef : (ef_train_trunc rawW cfgW).length = 2 := by
    have hefd : external_feature rawW cfgW = [[0], [0], [0], [0]] := by
      simp [external_feature, rawW, cfgW, resolved_range, sliceRange]
    have h0 : ef_train_trunc rawW cfgW = (external_feature rawW cfgW).take
        (splitPoint (external_feature rawW cfgW).length cfgW.test_ratio) := rfl
    rw [h0, hefd]
    simp only [List.length_take, List.length_cons, List.length_nil]
    rw [hsp]
    omega
  have h1 : maxLookback rawW.daily_slots cfgW.closeness_len cfgW.period_len cfgW.trend_len
      ≤ (train_trunc rawW cfgW).length := by rw [hm, htt]; norm_num
  have h2 : (ef_train_trunc rawW cfgW).length = (train_trunc rawW cfgW).length := by
    rw [htt, hef]
  exact ⟨h1, h2, (C1_test_expansion rawW cfgW h1 h2).2.1⟩

/-- C2: `traffic_data_index` contains exactly the original node indices
whose column mean times `daily_slots` exceeds 1; entry `(ti, ji)` of the
kept traffic matrix is the raw entry at slot `data_range[0] + ti` of
original node `traffic_data_index[ji]` (so kept column `ji` is the raw
series of that node over the selected range); and after construction
`station_number` equals `len(traffic_data_index)`. -/
theorem C2_node_filter (raw : RawData) (cfg : Config) (L : Loader)
    (h : buildLoader raw cfg = .ok L) :
    (∀ j, j ∈ traffic_data_index raw ↔
      j < ncols raw.node_traffic ∧ colMean raw.node_traffic j * raw.daily_slots > 1) ∧
    (∀ ti ji, ti < (traffic_data raw cfg).length → ji < (traffic_data_index raw).length →
      ((traffic_data raw cfg).getD ti []).getD ji 0
        = (raw.node_traffic.getD ((resolved_range raw cfg.dataRange).1 + ti) []).getD
            ((traffic_data_index raw).getD ji 0) 0) ∧
    L.station_number = (traffic_data_index raw).length := by
  refine ⟨?_, ?_, ?_⟩
  · intro j
    unfold traffic_data_index
    rw [List.mem_filter, List.mem_range]
    simp
  · intro ti ji hti hji
    have hlen : ti < (sliceRange raw.node_traffic (resolved_range raw cfg.dataRange).1
        (resolved_range raw cfg.dataRange).2).length := by
      have : (traffic_data raw cfg).length = (sliceRange raw.node_traffic
          (resolved_range raw cfg.dataRange).1 (resolved_range raw cfg.dataRange).2).length := by
        unfold traffic_data
        rw [List.length_map]
      omega
    have h1 : ((traffic_data raw cfg).getD ti [])
        = (traffic_data_index raw).map
            (fun j => ((sliceRange raw.node_traffic (resolved_range raw cfg.dataRange).1
              (resolved_range raw cfg.dataRange).2).getD ti []).getD j 0) := by
      unfold traffic_data
      exact getD_map_lt _ _ _ hlen [] []
    rw [h1, getD_map_lt _ _ _ hji 0 0]
    congr 1
    unfold sliceRange
    rw [List.getD_eq_getElem?_getD, List.getElem?_drop, List.getElem?_take,
      List.getD_eq_getElem?_getD]
    have hb : (resolved_range raw cfg.dataRange).1 + ti < (resolved_range raw cfg.dataRange).2 := by
      have := hlen
      unfold sliceRange at this
      rw [List.length_drop, List.length_take] at this
      omega
    rw [if_pos hb]
  · rw [buildLoader_ok_elim h]
    rfl

/-- C2 witness: on the four-slot dataset the single node is kept, the
kept matrix copies its raw series, and `station_number` is 1. -/
theorem C2_node_filter_witness :
    (buildLoader rawW cfgW = .ok (mkLoader rawW cfgW)) ∧
    (0 ∈ traffic_data_index rawW ↔
      0 < ncols rawW.node_traffic ∧ colMean rawW.node_traffic 0 * rawW.daily_slots > 1) ∧
    (mkLoader rawW cfgW).station_number = (traffic_data_index rawW).length := by
  have h1 : buildLoader rawW cfgW = .ok (mkLoader rawW cfgW) := by
    apply buildLoader_eq_ok
    · simp only [cfgW]; push_neg; norm_num
    · simp [cfgW]
    · simp [cfgW]
  have h := C2_node_filter rawW cfgW (mkLoader rawW cfgW) h1
  exact ⟨h1, h.1 0, h.2.2⟩

/-- C3: in a completed construction with a non-empty external feature
matrix (on a well-formed dataset whose external rows align with the
traffic rows, with at least one slot per day and the supported
`target_length = 1`), the retained raw external feature arrays are
re-sliced to exactly the traffic-derived sequence lengths, which are the
maxima of the windowed traffic output lengths. -/
theorem C3_external_reslice (raw : RawData) (cfg : Config) (L : Loader)
    (h : buildLoader raw cfg = .ok L)
    (hE : 0 < (external_feature raw cfg).length)
    (hExt : raw.external_rows.length = raw.node_traffic.length)
    (hds : 1 ≤ raw.daily_slots)
    (htgt : cfg.target_length = 1) :
    L.train_ef.length = L.train_sequence_len ∧
    L.test_ef.length = L.test_sequence_len ∧
    L.train_sequence_len
      = max L.train_closeness.length (max L.train_period.length L.train_trend.length) ∧
    L.test_sequence_len
      = max L.test_closeness.length (max L.test_period.length L.test_trend.length) := by
  have hz := (buildLoader_ok_conditions h).2.1
  have hL := buildLoader_ok_elim h
  subst hL
  have hefsplit : (ef_train_split raw cfg).length = (train_split raw cfg).length := by
    unfold ef_train_split train_split
    rw [length_split1, length_split1, length_external_feature_eq hE hExt]
  have hefsplit2 : (ef_test_split raw cfg).length = (test_split raw cfg).length := by
    unfold ef_test_split test_split
    rw [length_split2, length_split2, length_external_feature_eq hE hExt]
  have htrunc : (ef_train_trunc raw cfg).length = (train_trunc raw cfg).length :=
    length_ef_train_trunc_eq hefsplit
  have hexp : (ef_test_expand raw cfg).length = (test_expand raw cfg).length := by
    unfold ef_test_expand test_expand
    rw [length_expandStep, length_expandStep, htrunc, hefsplit2, length_test_norm]
  have hml := one_le_maxLookback hds hz
  refine ⟨?_, ?_, rfl, rfl⟩
  · rw [mkLoader_train_ef, if_pos hE, mkLoader_train_sequence_len, htgt]
    have hseq : train_sequence_len raw cfg
        = sampleCount raw.daily_slots cfg.closeness_len cfg.period_len cfg.trend_len 1
            (train_trunc raw cfg).length :=
      seq_len_move _ _ _ _ _ hz
    rw [hseq]
    unfold tailSlice
    rw [length_pySlice, htrunc]
    unfold pyIdx sampleCount
    split_ifs <;> omega
  · rw [mkLoader_test_ef, if_pos hE, mkLoader_test_sequence_len, htgt]
    have hseq : test_sequence_len raw cfg
        = sampleCount raw.daily_slots cfg.closeness_len cfg.period_len cfg.trend_len 1
            (test_expand raw cfg).length :=
      seq_len_move _ _ _ _ _ hz
    rw [hseq]
    unfold tailSlice
    rw [length_pySlice, hexp]
    unfold pyIdx sampleCount
    split_ifs <;> omega

/-- C3 witness: the four-slot dataset with aligned external rows and a
completed construction satisfies the re-slicing equalities. -/
theorem C3_external_reslice_witness :
    (buildLoader rawW cfgW = .ok (mkLoader rawW cfgW)) ∧
    (0 < (external_feature rawW cfgW).length) ∧
    (rawW.external_rows.length = rawW.node_traffic.length) ∧
    ((1 : ℚ) ≤ rawW.daily_slots) ∧
    (cfgW.target_length = 1) ∧
    (mkLoader rawW cfgW).train_ef.length = (mkLoader rawW cfgW).train_sequence_len ∧
    (mkLoader rawW cfgW).test_ef.length = (mkLoader rawW cfgW).test_sequence_len := by
  have h1 : buildLoader rawW cfgW = .ok (mkLoader rawW cfgW) := by
    apply buildLoader_eq_ok
    · simp only [cfgW]; push_neg; norm_num
    · simp [cfgW]
    · simp [cfgW]
  have hE : 0 < (external_feature rawW cfgW).length := by
    simp [external_feature, cfgW, rawW, resolved_range, sliceRange]
  have hds : (1 : ℚ) ≤ rawW.daily_slots := le_refl 1
  have hc := C3_external_reslice rawW cfgW (mkLoader rawW cfgW) h1 hE rfl hds rfl
  exact ⟨h1, hE, rfl, hds, rfl, hc.1, hc.2.1⟩

/-- C4 (amended): the min-max normalizer is fit once, on the train
partition only, and the same fitted statistics are applied to both
partitions.  The no-leakage hyperproperty holds at the level of the
selected, node-filtered traffic matrix: two completed constructions with
the same configuration and `daily_slots` whose traffic train partitions
are identical produce identical final train data, whatever the test
partitions hold.  For raw input datasets the claim as stated fails,
because `traffic_data_index` averages over the whole raw series
(including test-period slots), so changing only test-partition values can
change the kept-node set and with it the normalized train data. -/
theorem C4_train_normalization (raw1 raw2 : RawData) (cfg : Config) (L1 L2 : Loader)
    (h1 : buildLoader raw1 cfg = .ok L1) (h2 : buildLoader raw2 cfg = .ok L2)
    (hds : raw1.daily_slots = raw2.daily_slots)
    (hpre : train_split raw1 cfg = train_split raw2 cfg) :
    (cfg.normalize = true →
      train_norm raw1 cfg
        = (Normalizer.fit (train_split raw1 cfg)).min_max_normal (train_split raw1 cfg) ∧
      test_norm raw1 cfg
        = (Normalizer.fit (train_split raw1 cfg)).min_max_normal (test_split raw1 cfg)) ∧
    L1.train_data = L2.train_data := by
  have e1 := buildLoader_ok_elim h1
  have e2 := buildLoader_ok_elim h2
  subst e1
  subst e2
  refine ⟨fun hn => ⟨?_, ?_⟩, ?_⟩
  · unfold train_norm
    rw [if_pos hn]
  · unfold test_norm
    rw [if_pos hn]
  · rw [mkLoader_train_data, mkLoader_train_data]
    have hnorm : train_norm raw1 cfg = train_norm raw2 cfg := by
      unfold train_norm
      rw [hpre]
    unfold train_trunc
    cases cfg.trainDataLength with
    | all => exact hnorm
    | days d => rw [hnorm, hds]

/-- C4 counterexample: `rawA` and `rawB` agree on the train slot (row 0)
and differ only at the test slot (row 1), yet with `normalize = True`
the resulting train data differ — in `rawA` the node fails the
whole-series activity filter, in `rawB` it passes — so the claim as
stated (identical normalized train data) is false. -/
theorem C4_leak_through_filter :
    rawA.node_traffic.take 1 = rawB.node_traffic.take 1 ∧
    rawA.node_traffic.length = rawB.node_traffic.length ∧
    rawA.daily_slots = rawB.daily_slots ∧
    splitPoint rawA.node_traffic.length cfgN.test_ratio = 1 ∧
    cfgN.normalize = true ∧
    trainDataOf (buildLoader rawA cfgN) ≠ trainDataOf (buildLoader rawB cfgN) := by
  have hok1 : buildLoader rawA cfgN = .ok (mkLoader rawA cfgN) := by
    apply buildLoader_eq_ok
    · simp only [cfgN, cfgW]; push_neg; norm_num
    · simp [cfgN, cfgW]
    · simp [external_feature, cfgN, cfgW]
  have hok2 : buildLoader rawB cfgN = .ok (mkLoader rawB cfgN) := by
    apply buildLoader_eq_ok
    · simp only [cfgN, cfgW]; push_neg; norm_num
    · simp [cfgN, cfgW]
    · simp [external_feature, cfgN, cfgW]
  have hsp : splitPoint 2 cfgN.test_ratio = 1 := by
    simp only [splitPoint, cfgN, cfgW]
    norm_num [round_eq]
  have hidxA : traffic_data_index rawA = [] := by
    simp only [traffic_data_index, rawA, ncols, List.headD, List.length_cons, List.length_nil]
    norm_num [List.range_succ, List.filter, colMean, column, List.sum_cons]
  have hidxB : traffic_data_index rawB = [0] := by
    simp only [traffic_data_index, rawB, rawA, ncols, List.headD, List.length_cons,
      List.length_nil]
    norm_num [List.range_succ, List.filter, colMean, column, List.sum_cons]
  have htdA : traffic_data rawA cfgN = [[], []] := by
    have h0 : traffic_data rawA cfgN = (sliceRange rawA.node_traffic 0 2).map
        (fun row => (traffic_data_index rawA).map (fun j => row.getD j 0)) := rfl
    rw [h0, hidxA]
    simp [rawA, sliceRange]
  have htdB : traffic_data rawB cfgN = [[1], [5]] := by
    have h0 : traffic_data rawB cfgN = (sliceRange rawB.node_traffic 0 2).map
        (fun row => (traffic_data_index rawB).map (fun j => row.getD j 0)) := rfl
    rw [h0, hidxB]
    simp [rawB, rawA, sliceRange]
  have htsA : train_split rawA cfgN = [[]] := by
    have h0 : train_split rawA cfgN = (traffic_data rawA cfgN).take
        (splitPoint (traffic_data rawA cfgN).length cfgN.test_ratio) := rfl
    rw [h0, htdA]
    simp only [List.length_cons, List.length_nil]
    rw [show (0 : ℕ) + 1 + 1 = 2 from rfl, hsp]
    rfl
  have htsB : train_split rawB cfgN = [[1]] := by
    have h0 : train_split rawB cfgN = (traffic_data rawB cfgN).take
        (splitPoint (traffic_data rawB cfgN).length cfgN.test_ratio) := rfl
    rw [h0, htdB]
    simp only [List.length_cons, List.length_nil]
    rw [show (0 : ℕ) + 1 + 1 = 2 from rfl, hsp]
    rfl
  have hnA : trainDataOf (buildLoader rawA cfgN)
      = (Normalizer.fit (train_split rawA cfgN)).min_max_normal (train_split rawA cfgN) := by
    rw [hok1]
    rfl
  have hnB : trainDataOf (buildLoader rawB cfgN)
      = (Normalizer.fit (train_split rawB cfgN)).min_max_normal (train_split rawB cfgN) := by
    rw [hok2]
    rfl
  have hvA : trainDataOf (buildLoader rawA cfgN) = [[]] := by
    rw [hnA, htsA]
    simp [Normalizer.fit, Normalizer.min_max_normal, ncols]
  have hvB : trainDataOf (buildLoader rawB cfgN) = [[0]] := by
    rw [hnB, htsB]
    simp only [Normalizer.fit, Normalizer.min_max_normal, ncols, List.headD, List.length_cons,
      List.length_nil]
    norm_num [List.range_succ, colMin, colMax, column, epsQ]
  refine ⟨by simp [rawA, rawB], by simp [rawA, rawB], rfl, hsp, rfl, ?_⟩
  rw [hvA, hvB]
  simp

/-- C4 witness: `rawB` and `rawB2` differ only at the test slot, both
keep the node, their train partitions coincide, and the amended theorem
yields identical final train data. -/
theorem C4_train_normalization_witness :
    (buildLoader rawB cfgN = .ok (mkLoader rawB cfgN)) ∧
    (buildLoader rawB2 cfgN = .ok (mkLoader rawB2 cfgN)) ∧
    (rawB.daily_slots = rawB2.daily_slots) ∧
    (train_split rawB cfgN = train_split rawB2 cfgN) ∧
    (cfgN.normalize = true) ∧
    (mkLoader rawB cfgN).train_data = (mkLoader rawB2 cfgN).train_data := by
  have hok1 : buildLoader rawB cfgN = .ok (mkLoader rawB cfgN) := by
    apply buildLoader_eq_ok
    · simp only [cfgN, cfgW]; push_neg; norm_num
    · simp [cfgN, cfgW]
    · simp [external_feature, cfgN, cfgW]
  have hok2 : buildLoader rawB2 cfgN = .ok (mkLoader rawB2 cfgN) := by
    apply buildLoader_eq_ok
    · simp only [cfgN, cfgW]; push_neg; norm_num
    · simp [cfgN, cfgW]
    · simp [external_feature, cfgN, cfgW]
  have hsp : splitPoint 2 cfgN.test_ratio = 1 := by
    simp only [splitPoint, cfgN, cfgW]
    norm_num [round_eq]
  have hidxB : traffic_data_index rawB = [0] := by
    simp only [traffic_data_index, rawB, rawA, ncols, List.headD, List.length_cons,
      List.length_nil]
    norm_num [List.range_succ, List.filter, colMean, column, List.sum_cons]
  have hidxB2 : traffic_data_index rawB2 = [0] := by
    simp only [traffic_data_index, rawB2, rawA, ncols, List.headD, List.length_cons,
      List.length_nil]
    norm_num [List.range_succ, List.filter, colMean, column, List.sum_cons]
  have htdB : traffic_data rawB cfgN = [[1], [5]] := by
    have h0 : traffic_data rawB cfgN = (sliceRange rawB.node_traffic 0 2).map
        (fun row => (traffic_data_index rawB).map (fun j => row.getD j 0)) := rfl
    rw [h0, hidxB]
    simp [rawB, rawA, sliceRange]
  have htdB2 : traffic_data rawB2 cfgN = [[1], [7]] := by
    have h0 : traffic_data rawB2 cfgN = (sliceRange rawB2.node_traffic 0 2).map
        (fun row => (traffic_data_index rawB2).map (fun j => row.getD j 0)) := rfl
    rw [h0, hidxB2]
    simp [rawB2, rawA, sliceRange]
  have hpre : train_split rawB cfgN = train_split rawB2 cfgN := by
    have h0 : train_split rawB cfgN = (traffic_data rawB cfgN).take
        (splitPoint (traffic_data rawB cfgN).length cfgN.test_ratio) := rfl
    have h02 : train_split rawB2 cfgN = (traffic_data rawB2 cfgN).take
        (splitPoint (traffic_data rawB2 cfgN).length cfgN.test_ratio) := rfl
    rw [h0, h02, htdB, htdB2]
    simp only [List.length_cons, List.length_nil]
    rw [show (0 : ℕ) + 1 + 1 = 2 from rfl, hsp]
    rfl
  exact ⟨hok1, hok2, rfl, hpre, rfl,
    (C4_train_normalization rawB rawB2 cfgN _ _ hok1 hok2 rfl hpre).2⟩

/-- C5 (amended): the Laplacians produced by `build_graph` for
`distance`, `interaction`, `correlation` and `line` are square of shape
`[station_number, station_number]` over the kept-node set (`line` after
re-indexing through `traffic_data_index`), given a non-empty kept-width
train matrix and in-bounds kept indices; the static `neighbor` and
`transfer` graphs are passed through to the Laplacian conversion without
re-indexing and keep the shape of the raw pre-supplied adjacency, which
equals `[station_number, station_number]` only when no node was
filtered out. -/
theorem C5_graph_shapes (ctx : GraphCtx)
    (htd1 : ctx.train_data ≠ [])
    (htd2 : ∀ row ∈ ctx.train_data, row.length = ctx.traffic_data_index.length)
    (hline : ∀ i ∈ ctx.traffic_data_index, i < ctx.graph_lines.length) :
    shape2 ((build_graph ctx "distance").2.getD [])
      = (ctx.traffic_data_index.length, ctx.traffic_data_index.length) ∧
    shape2 ((build_graph ctx "interaction").2.getD [])
      = (ctx.traffic_data_index.length, ctx.traffic_data_index.length) ∧
    shape2 ((build_graph ctx "correlation").2.getD [])
      = (ctx.traffic_data_index.length, ctx.traffic_data_index.length) ∧
    shape2 ((build_graph ctx "line").2.getD [])
      = (ctx.traffic_data_index.length, ctx.traffic_data_index.length) ∧
    shape2 ((build_graph ctx "neighbor").2.getD []) = shape2 ctx.graph_neighbors ∧
    shape2 ((build_graph ctx "transfer").2.getD []) = shape2 ctx.graph_transfer := by
  have hD : (build_graph ctx "distance").2
      = some (adjacent_to_laplacian (graph_distance_am ctx)) := by
    unfold build_graph
    rw [if_pos rfl]
  have hI : (build_graph ctx "interaction").2
      = some (adjacent_to_laplacian (graph_interaction_am ctx)) := by
    unfold build_graph
    rw [if_neg (by decide), if_pos rfl]
  have hC : (build_graph ctx "correlation").2
      = some (adjacent_to_laplacian (graph_correlation_am ctx)) := by
    unfold build_graph
    rw [if_neg (by decide), if_neg (by decide), if_pos rfl]
  have hN : (build_graph ctx "neighbor").2
      = some (adjacent_to_laplacian ctx.graph_neighbors) := by
    unfold build_graph
    rw [if_neg (by decide), if_neg (by decide), if_neg (by decide), if_pos rfl]
  have hL : (build_graph ctx "line").2 = some (graph_line_lm ctx) := by
    unfold build_graph
    rw [if_neg (by decide), if_neg (by decide), if_neg (by decide), if_neg (by decide),
      if_pos rfl]
  have hT : (build_graph ctx "transfer").2
      = some (adjacent_to_laplacian ctx.graph_transfer) := by
    unfold build_graph
    rw [if_neg (by decide), if_neg (by decide), if_neg (by decide), if_neg (by decide),
      if_neg (by decide), if_pos rfl]
  refine ⟨?_, ?_, ?_, ?_, ?_, ?_⟩
  · rw [hD, Option.getD_some, shape2_adjacent_to_laplacian]
    unfold graph_distance_am
    rw [shape2_distance_adjacent, List.length_map]
  · rw [hI, Option.getD_some, shape2_adjacent_to_laplacian]
    simp only [graph_interaction_am]
    rw [shape2_interaction_adjacent]
    apply isSquare_shape2
    have hsum : IsSquare ctx.traffic_data_index.length
        (sumMats ctx.traffic_data_index.length
          (pySliceFrom ((split_data (ctx.node_monthly_interaction.map (fun month =>
            ctx.traffic_data_index.map (fun i =>
              ctx.traffic_data_index.map (fun j => (month.getD i []).getD j 0))))
            ctx.test_ratio).1) (-12))) := by
      apply sumMats_isSquare
      intro m hm
      unfold pySliceFrom at hm
      have hm2 := List.mem_of_mem_drop hm
      simp only [split_data] at hm2
      have hm3 := List.mem_of_mem_take hm2
      rw [List.mem_map] at hm3
      obtain ⟨month, _, he⟩ := hm3
      refine ⟨by rw [← he, List.length_map], ?_⟩
      intro row hrow
      rw [← he, List.mem_map] at hrow
      obtain ⟨i, _, he2⟩ := hrow
      rw [← he2, List.length_map]
    exact matAdd_isSquare hsum (transposeQ_isSquare hsum)
  · rw [hC, Option.getD_some, shape2_adjacent_to_laplacian]
    simp only [graph_correlation_am]
    rw [shape2_correlation_adjacent, ncols_pySliceFrom _ _ (by omega) htd1 htd2]
  · rw [hL, Option.getD_some]
    unfold graph_line_lm shape2
    cases hidx : ctx.traffic_data_index with
    | nil => simp [ncols]
    | cons i0 rest =>
      rw [hidx] at hline
      have hi0 : i0 < ctx.graph_lines.length := hline i0 (List.mem_cons_self _ _)
      have hb : i0 < (adjacent_to_laplacian ctx.graph_lines).length := by
        unfold adjacent_to_laplacian
        rw [List.length_mapIdx]
        exact hi0
      rw [Prod.mk.injEq]
      refine ⟨List.length_map _ _, ?_⟩
      rw [ncols_map_cons, getD_map_lt _ _ _ hb [] [], List.length_map]
  · rw [hN, Option.getD_some, shape2_adjacent_to_laplacian]
  · rw [hT, Option.getD_some, shape2_adjacent_to_laplacian]

/-- C5 witness: on `ctxC5` the kept-node graphs have shape `(1, 1)` and
the pass-through graphs keep the raw shape. -/
theorem C5_graph_shapes_witness :
    (ctxC5.train_data ≠ []) ∧
    (∀ row ∈ ctxC5.train_data, row.length = ctxC5.traffic_data_index.length) ∧
    (∀ i ∈ ctxC5.traffic_data_index, i < ctxC5.graph_lines.length) ∧
    shape2 ((build_graph ctxC5 "distance").2.getD [])
      = (ctxC5.traffic_data_index.length, ctxC5.traffic_data_index.length) ∧
    shape2 ((build_graph ctxC5 "line").2.getD [])
      = (ctxC5.traffic_data_index.length, ctxC5.traffic_data_index.length) := by
  have h1 : ctxC5.train_data ≠ [] := by simp [ctxC5]
  have h2 : ∀ row ∈ ctxC5.train_data, row.length = ctxC5.traffic_data_index.length := by
    intro row hr
    simp only [ctxC5] at hr ⊢
    simp at hr
    rw [hr]
    rfl
  have h3 : ∀ i ∈ ctxC5.traffic_data_index, i < ctxC5.graph_lines.length := by
    intro i hi
    have hi0 : i = 0 := by simpa [ctxC5] using hi
    subst hi0
    simp [ctxC5]
  have h := C5_graph_shapes ctxC5 h1 h2 h3
  exact ⟨h1, h2, h3, h.1, h.2.2.2.1⟩

/-- C5 counterexample: `ctxC5` keeps one node (`station_number = 1`) but
the `neighbor` Laplacian is built from the raw two-node adjacency without
re-indexing, so its shape is `(2, 2)`, not
`[station_number, station_number]`. -/
theorem C5_static_not_reindexed :
    shape2 ((build_graph ctxC5 "neighbor").2.getD []) = (2, 2) ∧
    ctxC5.traffic_data_index.length = 1 ∧
    ((2, 2) : ℕ × ℕ) ≠ (1, 1) := by
  have hN : (build_graph ctxC5 "neighbor").2
      = some (adjacent_to_laplacian ctxC5.graph_neighbors) := by
    unfold build_graph
    rw [if_neg (by decide), if_neg (by decide), if_neg (by decide), if_pos rfl]
  refine ⟨?_, rfl, by simp⟩
  rw [hN, Option.getD_some, shape2_adjacent_to_laplacian]
  rfl

/-- C6: for every node selection and both `is_train` values, `make_concat`
returns an array of shape `[len(y), len(selected nodes),
closeness_len + period_len + trend_len, 1]` whose trailing-history axis
holds, in order, the closeness entries, then the period entries, then the
trend entries, each copied from the corresponding windowed array (last
channel) at the same row and selected node. -/
theorem C6_make_concat (L : Loader) (node : NodeSel) (is_train : Bool) :
    (make_concat L node is_train).length = (if is_train then L.train_y else L.test_y).length ∧
    (∀ r, r < (if is_train then L.train_y else L.test_y).length →
      ((make_concat L node is_train).getD r []).length
        = (selNodes L.station_number node).length ∧
      (∀ i, i < (selNodes L.station_number node).length →
        (((make_concat L node is_train).getD r []).getD i []).length
          = L.closeness_len + L.period_len + L.trend_len ∧
        (∀ k, k < L.closeness_len + L.period_len + L.trend_len →
          ((((make_concat L node is_train).getD r []).getD i []).getD k []).length = 1 ∧
          ent4 (make_concat L node is_train) r i k 0
            = (if k < L.closeness_len then
                 ent4last (if is_train then L.train_closeness else L.test_closeness) r
                   ((selNodes L.station_number node).getD i 0) k
               else if k < L.closeness_len + L.period_len then
                 ent4last (if is_train then L.train_period else L.test_period) r
                   ((selNodes L.station_number node).getD i 0) (k - L.closeness_len)
               else
                 ent4last (if is_train then L.train_trend else L.test_trend) r
                   ((selNodes L.station_number node).getD i 0)
                   (k - L.closeness_len - L.period_len))))) := by
  obtain ⟨hS, hE⟩ := concat_fill_spec (if is_train then L.train_y else L.test_y).length
    (selNodes L.station_number node) L.closeness_len L.period_len L.trend_len
    (if is_train then L.train_closeness else L.test_closeness)
    (if is_train then L.train_period else L.test_period)
    (if is_train then L.train_trend else L.test_trend)
  have hmc : make_concat L node is_train
      = (concat_fill (if is_train then L.train_y else L.test_y).length
          (selNodes L.station_number node) L.closeness_len L.period_len L.trend_len
          (if is_train then L.train_closeness else L.test_closeness)
          (if is_train then L.train_period else L.test_period)
          (if is_train then L.train_trend else L.test_trend)).map
        (fun m => m.map (fun row => row.map (fun x => [x]))) := rfl
  refine ⟨by rw [hmc, List.length_map, hS.1], ?_⟩
  intro r hr
  have hr2 : r < (concat_fill (if is_train then L.train_y else L.test_y).length
      (selNodes L.station_number node) L.closeness_len L.period_len L.trend_len
      (if is_train then L.train_closeness else L.test_closeness)
      (if is_train then L.train_period else L.test_period)
      (if is_train then L.train_trend else L.test_trend)).length := by
    rw [hS.1]
    exact hr
  have hrow : (make_concat L node is_train).getD r []
      = ((concat_fill (if is_train then L.train_y else L.test_y).length
          (selNodes L.station_number node) L.closeness_len L.period_len L.trend_len
          (if is_train then L.train_closeness else L.test_closeness)
          (if is_train then L.train_period else L.test_period)
          (if is_train then L.train_trend else L.test_trend)).getD r []).map
        (fun m => m.map (fun x => [x])) := by
    rw [hmc]
    exact getD_map_lt _ _ _ hr2 [] []
  refine ⟨by rw [hrow, List.length_map, (hS.2 r hr).1], ?_⟩
  intro i hi
  have hib : i < ((concat_fill (if is_train then L.train_y else L.test_y).length
      (selNodes L.station_number node) L.closeness_len L.period_len L.trend_len
      (if is_train then L.train_closeness else L.test_closeness)
      (if is_train then L.train_period else L.test_period)
      (if is_train then L.train_trend else L.test_trend)).getD r []).length := by
    rw [(hS.2 r hr).1]
    exact hi
  have hcell : ((make_concat L node is_train).getD r []).getD i []
      = (((concat_fill (if is_train then L.train_y else L.test_y).length
          (selNodes L.station_number node) L.closeness_len L.period_len L.trend_len
          (if is_train then L.train_closeness else L.test_closeness)
          (if is_train then L.train_period else L.test_period)
          (if is_train then L.train_trend else L.test_trend)).getD r []).getD i []).map
        (fun x => [x]) := by
    rw [hrow]
    exact getD_map_lt _ _ _ hib [] []
  refine ⟨by rw [hcell, List.length_map, (hS.2 r hr).2 i hi], ?_⟩
  intro k hk
  have hkb : k < (((concat_fill (if is_train then L.train_y else L.test_y).length
      (selNodes L.station_number node) L.closeness_len L.period_len L.trend_len
      (if is_train then L.train_closeness else L.test_closeness)
      (if is_train then L.train_period else L.test_period)
      (if is_train then L.train_trend else L.test_trend)).getD r []).getD i []).length := by
    rw [(hS.2 r hr).2 i hi]
    exact hk
  have hval : (((make_concat L node is_train).getD r []).getD i []).getD k []
      = [(((concat_fill (if is_train then L.train_y else L.test_y).length
          (selNodes L.station_number node) L.closeness_len L.period_len L.trend_len
          (if is_train then L.train_closeness else L.test_closeness)
          (if is_train then L.train_period else L.test_period)
          (if is_train then L.train_trend else L.test_trend)).getD r []).getD i []).getD k 0] := by
    rw [hcell]
    exact getD_map_lt _ _ _ hkb [] 0
  refine ⟨by rw [hval]; rfl, ?_⟩
  have hent : ent4 (make_concat L node is_train) r i k 0
      = ent3 (concat_fill (if is_train then L.train_y else L.test_y).length
          (selNodes L.station_number node) L.closeness_len L.period_len L.trend_len
          (if is_train then L.train_closeness else L.test_closeness)
          (if is_train then L.train_period else L.test_period)
          (if is_train then L.train_trend else L.test_trend)) r i k := by
    unfold ent4
    rw [hval]
    rfl
  rw [hent, hE r i k hr hi hk, if_pos hi]

/-- C6 witness: on the one-row, one-station loader with closeness and
period lengths 1 the concatenation has the documented shape and copies
the closeness entry at position 0. -/
theorem C6_make_concat_witness :
    (0 < (if true then loaderW.train_y else loaderW.test_y).length) ∧
    (0 < (selNodes loaderW.station_number NodeSel.all).length) ∧
    (0 < loaderW.closeness_len + loaderW.period_len + loaderW.trend_len) ∧
    (make_concat loaderW NodeSel.all true).length
      = (if true then loaderW.train_y else loaderW.test_y).length ∧
    ent4 (make_concat loaderW NodeSel.all true) 0 0 0 0
      = (if 0 < loaderW.closeness_len then
           ent4last (if true then loaderW.train_closeness else loaderW.test_closeness) 0
             ((selNodes loaderW.station_number NodeSel.all).getD 0 0) 0
         else if 0 < loaderW.closeness_len + loaderW.period_len then
           ent4last (if true then loaderW.train_period else loaderW.test_period) 0
             ((selNodes loaderW.station_number NodeSel.all).getD 0 0) (0 - loaderW.closeness_len)
         else
           ent4last (if true then loaderW.train_trend else loaderW.test_trend) 0
             ((selNodes loaderW.station_number NodeSel.all).getD 0 0)
             (0 - loaderW.closeness_len - loaderW.period_len)) := by
  have hr : 0 < (if true then loaderW.train_y else loaderW.test_y).length := by
    simp [loaderW]
  have hi : 0 < (selNodes loaderW.station_number NodeSel.all).length := by
    simp [selNodes, loaderW]
  have hk : 0 < loaderW.closeness_len + loaderW.period_len + loaderW.trend_len := by
    simp [loaderW]
  have h := C6_make_concat loaderW NodeSel.all true
  exact ⟨hr, hi, hk, h.1, (((h.2 0 hr).2 0 hi).2 0 hk).2⟩

/-- C7 (amended): with `train_data_length = d` days, both train partitions
are truncated, before the test expansion, to their most recent
`int(d * daily_slots)` rows when that count is at least 1 (so the result
is `min(int(d * daily_slots), current length)` rows); when
`int(d * daily_slots) = 0` — in particular when `d = 0` — the Python
slice `a[-0:]` keeps the partitions unchanged; with `'all'` the split
train partitions are used unchanged. -/
theorem C7_train_truncation (raw : RawData) (cfg : Config) :
    (cfg.trainDataLength = .all →
      train_trunc raw cfg = train_norm raw cfg ∧
      ef_train_trunc raw cfg = ef_train_split raw cfg) ∧
    (∀ d, cfg.trainDataLength = .days d →
      (1 ≤ floorNat ((d : ℚ) * raw.daily_slots) →
        train_trunc raw cfg = (train_norm raw cfg).drop
            ((train_norm raw cfg).length - floorNat ((d : ℚ) * raw.daily_slots)) ∧
        ef_train_trunc raw cfg = (ef_train_split raw cfg).drop
            ((ef_train_split raw cfg).length - floorNat ((d : ℚ) * raw.daily_slots))) ∧
      (floorNat ((d : ℚ) * raw.daily_slots) = 0 →
        train_trunc raw cfg = train_norm raw cfg ∧
        ef_train_trunc raw cfg = ef_train_split raw cfg)) := by
  constructor
  · intro h
    unfold train_trunc ef_train_trunc
    rw [h]
    exact ⟨rfl, rfl⟩
  · intro d h
    unfold train_trunc ef_train_trunc
    rw [h]
    constructor
    · intro hk
      exact ⟨truncStep_pos d raw.daily_slots _ hk, truncStep_pos d raw.daily_slots _ hk⟩
    · intro hk
      exact ⟨truncStep_zero d raw.daily_slots _ hk, truncStep_zero d raw.daily_slots _ hk⟩

/-- C7 witness: truncating to one day of one slot keeps exactly the most
recent row of the half/half split of the four-slot dataset. -/
theorem C7_train_truncation_witness :
    ({ cfgW with trainDataLength := .days 1 }.trainDataLength = TrainLength.days 1) ∧
    (1 ≤ floorNat ((1 : ℚ) * rawW.daily_slots)) ∧
    (train_trunc rawW { cfgW with trainDataLength := .days 1 }
      = (train_norm rawW { cfgW with trainDataLength := .days 1 }).drop
          ((train_norm rawW { cfgW with trainDataLength := .days 1 }).length
            - floorNat ((1 : ℚ) * rawW.daily_slots))) := by
  have hk : 1 ≤ floorNat ((1 : ℚ) * rawW.daily_slots) := by
    simp only [floorNat, rawW]
    norm_num
  exact ⟨rfl, hk,
    (((C7_train_truncation rawW { cfgW with trainDataLength := .days 1 }).2 1 rfl).1 hk).1⟩

/-- C7 counterexample: with `train_data_length = 0` days the claim
demands truncation to the most recent `0 * daily_slots = 0` rows, but the
Python slice `a[-0:]` keeps the whole two-row train partition. -/
theorem C7_zero_days_keeps_all :
    truncStep 0 (1 : ℚ) ([[(1 : ℚ)], [(2 : ℚ)]]) = [[(1 : ℚ)], [(2 : ℚ)]] ∧
    (truncStep 0 (1 : ℚ) ([[(1 : ℚ)], [(2 : ℚ)]])).length ≠ floorNat ((0 : ℚ) * 1) := by
  have h : truncStep 0 (1 : ℚ) ([[(1 : ℚ)], [(2 : ℚ)]]) = [[(1 : ℚ)], [(2 : ℚ)]] := by
    apply truncStep_zero
    simp [floorNat]
  refine ⟨h, ?_⟩
  rw [h]
  simp [floorNat]

/-- C10 witness: two constructions differing only in `data_range` and
`test_ratio` agree on the kept-node set. -/
theorem C10_filter_ignores_range_witness :
    buildLoader rawW cfgW = .ok (mkLoader rawW cfgW) ∧
    buildLoader rawW { cfgW with dataRange := .frac (1 / 2), test_ratio := 1 / 5 }
      = .ok (mkLoader rawW { cfgW with dataRange := .frac (1 / 2), test_ratio := 1 / 5 }) ∧
    (mkLoader rawW cfgW).traffic_data_index = traffic_data_index rawW ∧
    (mkLoader rawW cfgW).traffic_data_index
      = (mkLoader rawW { cfgW with dataRange := .frac (1 / 2), test_ratio := 1 / 5 }).traffic_data_index ∧
    (mkLoader rawW cfgW).station_number
      = (mkLoader rawW { cfgW with dataRange := .frac (1 / 2), test_ratio := 1 / 5 }).station_number := by
  have h1 : buildLoader rawW cfgW = .ok (mkLoader rawW cfgW) := by
    apply buildLoader_eq_ok
    · simp only [cfgW]; push_neg; norm_num
    · simp [cfgW]
    · simp [cfgW]
  have h2 : buildLoader rawW { cfgW with dataRange := .frac (1 / 2), test_ratio := 1 / 5 }
      = .ok (mkLoader rawW { cfgW with dataRange := .frac (1 / 2), test_ratio := 1 / 5 }) := by
    apply buildLoader_eq_ok
    · simp only [cfgW]; push_neg; norm_num
    · simp [cfgW]
    · simp [cfgW]
  have h := C10_filter_ignores_range rawW cfgW
    { cfgW with dataRange := .frac (1 / 2), test_ratio := 1 / 5 } _ _ h1 h2
  exact ⟨h1, h2, h.1, h.2.1, h.2.2⟩

end UCTB
